import Mathlib

/-!
# TrEnv-X orchestrator: sandbox registry, orphan recovery, resource layout and cleanup

A shallow embedding of

* `packages/orchestrator/server/server.go`  (`InsertSandbox`, `GetSandbox`, `DelSandbox`,
  `getOrphanProcess`, `templateIDRegex`, `parseTemplateIdFromOrphanProcess`, `purgeOne`), and
* `packages/orchestrator/sandbox/config.go` (`InstancePath` and the other path methods,
  `CleanupFiles`),

followed by the properties proved about them.

Conventions.  A Go `string` is a list of characters.  A Go `error` is `Option GoError`
(`none` is `nil`).  A Go function returning `(T, error)` returns a pair.  Code that talks to the
host (file removal, process signalling, network teardown) runs against a `World`: every call is
recorded, together with its result, in the order it is made, and the result of a call is whatever
the world's `outcome` function answers for the calls made so far; telemetry reports are
recorded in a list of their own.  The mutex of the registry and the tracing spans are not
represented: the embedding is sequential.

Library functions the code relies on are embedded by what they compute: `strings.HasPrefix`,
`strings.Contains`, `errors.Join`, `filepath.Clean` and `filepath.Join` (on the elements of a
slash-separated path), and the compiled pattern `templateIDRegex` (as a leftmost, greedy
matcher for that one pattern).  Types, constants and methods declared in packages outside the
two files are parameters.
-/

set_option autoImplicit false

namespace TrEnv

/-! ## Strings -/

/-- A Go string, as the list of its characters. -/
abbrev GoString := List Char

namespace strings

/-- Go `strings.HasPrefix(s, p)`. -/
def HasPrefix (s p : GoString) : Bool := p.isPrefixOf s

/-- Go `strings.Contains(s, substr)`: `substr` occurs at some position of `s`. -/
def Contains : GoString → GoString → Bool
  | [], substr => substr.isPrefixOf []
  | c :: cs, substr => substr.isPrefixOf (c :: cs) || Contains cs substr

end strings

/-! ## Errors -/

/-- An argument of a `fmt.Errorf` format string (other than the wrapped error). -/
inductive FmtArg where
  | str (s : GoString)
  | int (n : Int)

/-- A non-nil Go error value. -/
inductive GoError where
  /-- an error handed back by the operating system or by a library outside this repository -/
  | foreign (code : Nat)
  /-- the value of `fmt.Errorf(format, args...)` without a `%w` verb -/
  | errorf (format : String) (args : List FmtArg)
  /-- the value of `fmt.Errorf(format, args..., inner)` where `%w` stands for `inner` -/
  | wrapf (format : String) (args : List FmtArg) (inner : GoError)
  /-- the value of `errors.Join` when at least one argument is non-nil -/
  | join (errs : List GoError)

/-- Go `errors.Join(errs...)`: `nil` when every argument is `nil`, otherwise a join error holding
the non-nil arguments in order. -/
def errors.Join (errs : List (Option GoError)) : Option GoError :=
  match errs.filterMap id with
  | [] => none
  | e :: es => some (GoError.join (e :: es))

/-- The error `e` is `outer` itself or sits, at any depth, among the errors `outer` joins. -/
inductive GoError.Joins : GoError → GoError → Prop where
  | self (e : GoError) : GoError.Joins e e
  | member (es : List GoError) (x e : GoError) : x ∈ es → GoError.Joins x e →
      GoError.Joins (GoError.join es) e

/-! ## The sandbox registry (`server.sandboxes`) -/

/-- The `server` struct, reduced to its table `sandboxes map[string]*sandbox.Sandbox`.  The type
`Sandbox` of the table's values is declared outside the embedded files and is a parameter. -/
structure server (Sandbox : Type) where
  sandboxes : AList (fun _ : GoString => Sandbox)

section Registry
variable {Sandbox : Type}

/-- Go `(*server).InsertSandbox`: the returned bool tells whether the sandbox already existed before
the insert.  `SandboxID` is the method `(*Sandbox).SandboxID`. -/
def InsertSandbox (SandboxID : Sandbox → GoString) (s : server Sandbox) (sbx : Sandbox) :
    Bool × server Sandbox :=
  let id := SandboxID sbx
  let ok := (s.sandboxes.lookup id).isSome
  (ok, { s with sandboxes := s.sandboxes.insert (SandboxID sbx) sbx })

/-- Go `(*server).GetSandbox`: the value stored under `sandboxID` and whether there is one. -/
def GetSandbox (s : server Sandbox) (sandboxID : GoString) : Option Sandbox × Bool :=
  let sbx := s.sandboxes.lookup sandboxID
  (sbx, sbx.isSome)

/-- Go `(*server).DelSandbox`: the returned bool tells whether `sandboxID` existed. -/
def DelSandbox (s : server Sandbox) (sandboxID : GoString) : Bool × server Sandbox :=
  let ok := (s.sandboxes.lookup sandboxID).isSome
  (ok, { s with sandboxes := s.sandboxes.erase sandboxID })

end Registry

/-! ## Orphan discovery -/

/-- A host process as `getOrphanProcess` sees it: its pid and what `Cmdline()` returns for it. -/
structure Process where
  Pid : Int
  cmdline : Except GoError GoString

/-- The condition of the `if` in the loop of `getOrphanProcess`.  `FcBinaryName` and
`ChBinaryName` are the constants of package `constants`, declared outside the embedded files. -/
def launcherSignature (FcBinaryName ChBinaryName sandboxID cmdline : GoString) : Bool :=
  strings.HasPrefix cmdline "unshare".toList &&
  strings.Contains cmdline "ip netns exec".toList &&
  (strings.Contains cmdline FcBinaryName || strings.Contains cmdline ChBinaryName) &&
  strings.Contains cmdline sandboxID

/-- The `for _, process := range processes` loop of `getOrphanProcess`, started with the current
value of `res`.  `Except.error` is the `return nil, err` inside the loop; `Except.ok res` is the
value of `res` when the loop runs to its end. -/
def getOrphanProcess.scan (FcBinaryName ChBinaryName sandboxID : GoString) :
    List Process → Option Process → Except GoError (Option Process)
  | [], res => .ok res
  | process :: rest, res =>
    match process.cmdline with
    | .error _ => getOrphanProcess.scan FcBinaryName ChBinaryName sandboxID rest res
    | .ok cmdline =>
      if launcherSignature FcBinaryName ChBinaryName sandboxID cmdline then
        if res.isSome then
          .error (.errorf "find more than one process match sandbox id %s" [.str sandboxID])
        else
          getOrphanProcess.scan FcBinaryName ChBinaryName sandboxID rest (some process)
      else
        getOrphanProcess.scan FcBinaryName ChBinaryName sandboxID rest res

/-- Go `getOrphanProcess(sandboxID)`.  `processes` is what `process.Processes()` returns. -/
def getOrphanProcess (FcBinaryName ChBinaryName : GoString)
    (processes : Except GoError (List Process)) (sandboxID : GoString) :
    Option Process × Option GoError :=
  match processes with
  | .error err => (none, some (.wrapf "cannot get processes on orchestrator: %w" [] err))
  | .ok processes =>
    match getOrphanProcess.scan FcBinaryName ChBinaryName sandboxID processes none with
    | .error err => (none, some err)
    | .ok none =>
      (none, some (.errorf "cannot find orphan process with sandbox id %s" [.str sandboxID]))
    | .ok (some res) => (some res, none)

/-- The processes of the list whose command line is readable and carries the launcher
signature for `sandboxID`, in the order of the list. -/
def launcherMatches (FcBinaryName ChBinaryName sandboxID : GoString) (processes : List Process) :
    List Process :=
  processes.filter fun p =>
    match p.cmdline with
    | .ok cmdline => launcherSignature FcBinaryName ChBinaryName sandboxID cmdline
    | .error _ => false

/-! ## The template-ID pattern -/

/-- The directory name constant `InstancesDirName` of package `sandbox`. -/
def InstancesDirName : GoString := "instances".toList

/-- The character class `[\w-]` of the pattern: an ASCII letter or digit, `_`, or `-`. -/
def isWordOrHyphen (c : Char) : Bool := c.isAlphanum || c == '_' || c == '-'

/-- The part `([\w-]+)lit` of the pattern, matched at the start of the input: one or more class
characters, as many as possible first (the repetition is greedy and gives characters back when
what follows does not match), then the literal text `lit`.  The result is the text of the
group. -/
def templateIDRegex.group (lit : GoString) : GoString → Option GoString
  | [] => none
  | c :: cs =>
    if isWordOrHyphen c then
      match templateIDRegex.group lit cs with
      | some more => some (c :: more)
      | none => if lit.isPrefixOf cs then some [c] else none
    else none

/-- The pattern `/([\w-]+)/instances/` matched at the start of the input. -/
def templateIDRegex.matchAt : GoString → Option GoString
  | [] => none
  | c :: cs =>
    if c = '/' then templateIDRegex.group ('/' :: InstancesDirName ++ ['/']) cs else none

/-- Go `templateIDRegex.FindStringSubmatch(s)`, reduced to the text of group 1: the match that
starts leftmost in `s`, `none` when the pattern matches nowhere. -/
def templateIDRegex.FindStringSubmatch : GoString → Option GoString
  | [] => none
  | c :: cs =>
    match templateIDRegex.matchAt (c :: cs) with
    | some templateID => some templateID
    | none => templateIDRegex.FindStringSubmatch cs

/-- Go `parseTemplateIdFromOrphanProcess(proc)`. -/
def parseTemplateIdFromOrphanProcess (proc : Process) : GoString × Option GoError :=
  match proc.cmdline with
  | .error err => ([], some (.wrapf "cannot cmdline from orphan process: %w" [] err))
  | .ok cmdline =>
    match templateIDRegex.FindStringSubmatch cmdline with
    | none =>
      ([], some (.errorf "cannot parse env id from orphan process (cmdline: %s)"
        [.str cmdline]))
    | some templateID => (templateID, none)

/-- The command line `c` has, right after `pre`, the shape `/T/instances/` with `T` a non-empty
text over letters, digits, underscore and hyphen. -/
def TemplateShapeAt (c pre T : GoString) : Prop :=
  T ≠ [] ∧ (∀ ch ∈ T, isWordOrHyphen ch = true) ∧
    ∃ post, c = pre ++ '/' :: T ++ '/' :: InstancesDirName ++ '/' :: post

/-! ## Paths (`path/filepath` on a slash-separated system) -/

namespace filepath

/-- The elements of a path: the texts between its separators (a path of `n` separators has
`n + 1` elements, some of them possibly empty). -/
def split : GoString → List GoString
  | [] => [[]]
  | c :: cs =>
    if c = '/' then [] :: split cs
    else
      match split cs with
      | [] => [[c]]
      | e :: es => (c :: e) :: es

/-- Go `strings.Join(elems, "/")`. -/
def joinSep : List GoString → GoString
  | [] => []
  | [e] => e
  | e :: es => e ++ '/' :: joinSep es

/-- The output of `Clean` while it runs: `dotdot` leading `..` elements that nothing can remove
any more, then the names written after them. -/
structure Cleaned where
  dotdot : Nat
  names : List GoString

/-- One round of the loop of `Clean`, on the next element of the path: an empty element and `.`
are dropped; `..` removes the last name when there is one, is dropped at the root, and is kept
otherwise; any other element is appended. -/
def cleanStep (rooted : Bool) (out : Cleaned) (e : GoString) : Cleaned :=
  if e = [] ∨ e = ['.'] then out
  else if e = ['.', '.'] then
    if out.names ≠ [] then { out with names := out.names.dropLast }
    else if rooted then out
    else { out with dotdot := out.dotdot + 1 }
  else { out with names := out.names ++ [e] }

/-- The text of a cleaned path. -/
def render (rooted : Bool) (out : Cleaned) : GoString :=
  let elems := List.replicate out.dotdot ['.', '.'] ++ out.names
  if rooted then '/' :: joinSep elems
  else if elems = [] then ['.']
  else joinSep elems

/-- A path is rooted when it starts with the separator. -/
def isRooted (path : GoString) : Bool := path.head? == some '/'

/-- Go `filepath.Clean(path)`: the shortest path name equivalent to `path` by purely lexical
processing. -/
def Clean (path : GoString) : GoString :=
  if path = [] then ['.']
  else render (isRooted path) ((split path).foldl (cleanStep (isRooted path)) ⟨0, []⟩)

/-- Go `filepath.Join(elem...)`: the elements from the first non-empty one on, joined with the
separator and cleaned; the empty string when every element is empty. -/
def Join (elem : List GoString) : GoString :=
  match elem.dropWhile (fun e => decide (e = [])) with
  | [] => []
  | e :: es => Clean (joinSep (e :: es))

/-- A single clean path element: not empty, without a separator, and neither `.` nor `..`. -/
def IsElem (e : GoString) : Prop :=
  e ≠ [] ∧ '/' ∉ e ∧ e ≠ ['.'] ∧ e ≠ ['.', '.']

instance (e : GoString) : Decidable (IsElem e) := by
  unfold IsElem; exact inferInstance

/-- The path of the entry named `e` in the directory `dir`, for a clean `dir`. -/
def child (dir e : GoString) : GoString :=
  if dir = [] ∨ dir = ['.'] then e
  else if dir = ['/'] then '/' :: e
  else dir ++ '/' :: e

/-- A directory path other than the empty path, `.` and `/`. -/
def Plain (d : GoString) : Prop := d ≠ [] ∧ d ≠ ['.'] ∧ d ≠ ['/']

/-- The invariant of the output of `Clean`: every name is a single clean element, and a rooted
path keeps no leading `..`. -/
def Cleaned.Ok (rooted : Bool) (out : Cleaned) : Prop :=
  (∀ e ∈ out.names, IsElem e) ∧ (rooted = true → out.dotdot = 0)

end filepath

/-! ## Resource layout (`SandboxConfig`) -/

/-- The struct `config.VMTemplate` embedded in `SandboxConfig`, reduced to the field the embedded
files read. -/
structure VMTemplate where
  TemplateID : GoString

/-- What the path methods use from packages declared outside the embedded files: the method
`(*VMTemplate).TemplateDir(dataRoot)` and the constants `consts.RootfsName`,
`consts.WritableFsName`, `consts.CgroupfsPath` and `constants.PrometheusTargetsDirName`. -/
structure Externals where
  TemplateDir : VMTemplate → GoString → GoString
  RootfsName : GoString
  WritableFsName : GoString
  CgroupfsPath : GoString
  PrometheusTargetsDirName : GoString

/-- The struct `SandboxConfig`. -/
structure SandboxConfig where
  VMTemplate : VMTemplate
  DataRoot : GoString
  SandboxID : GoString
  CgroupName : GoString
  SocketPath : GoString
  HypervisorBinaryPath : GoString
  EnableDiffSnapshot : Bool
  MaxInstanceLength : Int
  Metadata : List (GoString × GoString)

namespace SandboxConfig

/-- Go `(*SandboxConfig).InstancePath`. -/
def InstancePath (ext : Externals) (cfg : SandboxConfig) : GoString :=
  filepath.Join [ext.TemplateDir cfg.VMTemplate cfg.DataRoot, InstancesDirName, cfg.SandboxID]

/-- Go `(*SandboxConfig).InstanceRootfsPath`. -/
def InstanceRootfsPath (ext : Externals) (cfg : SandboxConfig) : GoString :=
  filepath.Join [cfg.InstancePath ext, ext.RootfsName]

/-- Go `(*SandboxConfig).InstanceWritableRootfsPath`. -/
def InstanceWritableRootfsPath (ext : Externals) (cfg : SandboxConfig) : GoString :=
  filepath.Join [cfg.InstancePath ext, ext.WritableFsName]

/-- Go `(*SandboxConfig).CgroupPath`. -/
def CgroupPath (ext : Externals) (cfg : SandboxConfig) : GoString :=
  filepath.Join [ext.CgroupfsPath, cfg.CgroupName, cfg.SandboxID]

/-- Go `(*SandboxConfig).PrometheusTargetPath`. -/
def PrometheusTargetPath (ext : Externals) (cfg : SandboxConfig) : GoString :=
  filepath.Join [cfg.DataRoot, ext.PrometheusTargetsDirName, cfg.VMTemplate.TemplateID,
    cfg.SandboxID ++ ".json".toList]

end SandboxConfig

/-! ## The host -/

/-- A call the embedded code makes to the host. -/
inductive Call where
  /-- Go `os.RemoveAll(path)` -/
  | RemoveAll (path : GoString)
  /-- Go `os.Remove(path)` -/
  | Remove (path : GoString)
  /-- Go `syscall.Rmdir(path)` -/
  | Rmdir (path : GoString)
  /-- Go `time.Sleep(d)`, `d` in milliseconds -/
  | Sleep (ms : Nat)
  /-- Go `os.FindProcess(pid)` -/
  | FindProcess (pid : Int)
  /-- Go `(*os.Process).Kill()` on the process found for `pid` -/
  | Kill (pid : Int)
  /-- Go `(*SandboxNetwork).DeleteNetns()` of the network of the sandbox -/
  | DeleteNetns (sandboxID : GoString)
  /-- Go `(*SandboxNetwork).DeleteHostVethDev()` -/
  | DeleteHostVethDev (sandboxID : GoString)
  /-- Go `(*SandboxNetwork).DeleteHostIptables()` -/
  | DeleteHostIptables (sandboxID : GoString)
  /-- Go `(*SandboxNetwork).DeleteHostRoute()` -/
  | DeleteHostRoute (sandboxID : GoString)
  /-- Go `(*NetworkManager).DeleteDNSEntry(sandboxID)` -/
  | DeleteDNSEntry (sandboxID : GoString)
  /-- Go `(*server).NewSandboxConfig` for a request with these two fields -/
  | NewSandboxConfig (sandboxID templateID : GoString)
  deriving DecidableEq

/-- A call that was made, with the error it returned (`none` for `nil`). -/
structure Entry where
  call : Call
  result : Option GoError

/-- A report to package `telemetry`. -/
inductive Report where
  /-- Go `telemetry.ReportError(ctx, err, attrs...)` -/
  | Error (err : GoError) (attrs : List (String × GoString))
  /-- Go `telemetry.ReportCriticalError(ctx, err)` -/
  | CriticalError (err : GoError)
  /-- Go `telemetry.ReportEvent(ctx, name, attrs...)` -/
  | Event (name : String) (attrs : List (String × GoString))

/-- The host as the code meets it: `outcome` answers a call given the calls made before it,
`trace` lists the calls made so far, oldest first, and `reports` the telemetry reports. -/
structure World where
  outcome : List Entry → Call → Option GoError
  trace : List Entry
  reports : List Report

namespace World

/-- Make a call: its result is the host's answer, and the call is recorded with it. -/
def call (w : World) (c : Call) : Option GoError × World :=
  (w.outcome w.trace c, { w with trace := w.trace ++ [⟨c, w.outcome w.trace c⟩] })

/-- Go `time.Sleep`: recorded, returns nothing. -/
def sleep (w : World) (ms : Nat) : World :=
  { w with trace := w.trace ++ [⟨.Sleep ms, none⟩] }

/-- Send a telemetry report. -/
def report (w : World) (r : Report) : World :=
  { w with reports := w.reports ++ [r] }

end World

/-! ## `CleanupFiles` -/

namespace SandboxConfig

/-- What `CleanupFiles` does with the result `err` of a removal:
`if err != nil { errMsg := fmt.Errorf(format, err); telemetry.ReportCriticalError(childCtx, errMsg);
finalErr = errors.Join(finalErr, errMsg) } else { telemetry.ReportEvent(childCtx, event) }`.
Returns the new `finalErr`. -/
def CleanupFiles.collect (format event : String) (err finalErr : Option GoError) (w : World) :
    Option GoError × World :=
  match err with
  | some e =>
    let errMsg := GoError.wrapf format [] e
    (errors.Join [finalErr, some errMsg], w.report (.CriticalError errMsg))
  | none => (finalErr, w.report (.Event event []))

/-- The loop `for _, sleepTime := range sleepTimes { if err = syscall.Rmdir(cfg.CgroupPath());
err == nil { break }; time.Sleep(sleepTime) }` over the remaining sleep times; `err` is the
variable the loop assigns, returned as it is when the loop ends. -/
def CleanupFiles.retry (cgroupPath : GoString) :
    List Nat → Option GoError → World → Option GoError × World
  | [], err, w => (err, w)
  | sleepTime :: rest, _, w =>
    match (w.call (.Rmdir cgroupPath)).1 with
    | none => (none, (w.call (.Rmdir cgroupPath)).2)
    | some e =>
      CleanupFiles.retry cgroupPath rest (some e)
        ((w.call (.Rmdir cgroupPath)).2.sleep sleepTime)

/-- Go `(*SandboxConfig).CleanupFiles(ctx, tracer, keepInstanceDir)`. -/
def CleanupFiles (ext : Externals) (cfg : SandboxConfig) (keepInstanceDir : Bool) (w : World) :
    Option GoError × World :=
  let finalErr : Option GoError := none
  let s1 : Option GoError × World :=
    if !keepInstanceDir then
      let r := w.call (.RemoveAll (cfg.InstancePath ext))
      CleanupFiles.collect "error deleting env instance files: %w"
        "removed all env instance files" r.1 finalErr r.2
    else (finalErr, w)
  -- Remove socket
  let r2 := s1.2.call (.Remove cfg.SocketPath)
  let s2 := CleanupFiles.collect "error deleting socket: %w" "removed socket" r2.1 s1.1 r2.2
  let r3 := s2.2.call (.Remove (cfg.PrometheusTargetPath ext))
  let s3 := CleanupFiles.collect "error prometheus target path: %w"
    "removed prometheus target path" r3.1 s2.1 r3.2
  -- retry rm cgroup dir for 3 times, as the final step
  let sleepTimes : List Nat := [200, 500, 1500]
  let r4 := CleanupFiles.retry (cfg.CgroupPath ext) sleepTimes r3.1 s3.2
  CleanupFiles.collect "error remove cgroup path: %w" "removed cgroup path" r4.1 s3.1 r4.2

end SandboxConfig

/-! ## `purgeOne` -/

/-- The struct `sandbox.SandboxInfo`; the type of its field `NetEnv` is declared outside the
embedded files and is a parameter. -/
structure SandboxInfo (NetworkEnv : Type) where
  SandboxID : GoString
  TemplateID : GoString
  Pid : Int
  NetEnv : NetworkEnv

/-- Step 1 of `purgeOne`, "kill process":
`proc, err := os.FindProcess(pid); if err != nil { return fmt.Errorf(...) }; return proc.Kill()`. -/
def purgeOne.kill (pid : Int) (w : World) : Option GoError × World :=
  match (w.call (.FindProcess pid)).1 with
  | some err =>
    (some (.wrapf "find orphan sandbox with pid %d failed: %w" [.int pid] err),
      (w.call (.FindProcess pid)).2)
  | none => (w.call (.FindProcess pid)).2.call (.Kill pid)

/-- What step 2 of `purgeOne` does with the result of a sub-step:
`if err := ...; err != nil { telemetry.ReportError(ctx, err);
finalErr = errors.Join(finalErr, err) }`. -/
def purgeOne.note (err finalErr : Option GoError) (w : World) : Option GoError × World :=
  match err with
  | some e => (errors.Join [finalErr, some e], w.report (.Error e []))
  | none => (finalErr, w)

/-- Step 2 of `purgeOne`, "cleanup network": the five teardown sub-steps. -/
def purgeOne.network (sandboxID : GoString) (w : World) : Option GoError × World :=
  let finalErr : Option GoError := none
  let r1 := w.call (.DeleteNetns sandboxID)
  let s1 := purgeOne.note r1.1 finalErr r1.2
  let r2 := s1.2.call (.DeleteHostVethDev sandboxID)
  let s2 := purgeOne.note r2.1 s1.1 r2.2
  let r3 := s2.2.call (.DeleteHostIptables sandboxID)
  let s3 := purgeOne.note r3.1 s2.1 r3.2
  let r4 := s3.2.call (.DeleteHostRoute sandboxID)
  let s4 := purgeOne.note r4.1 s3.1 r4.2
  let r5 := s4.2.call (.DeleteDNSEntry sandboxID)
  purgeOne.note r5.1 s4.1 r5.2

/-- Step 3 of `purgeOne`, "cleanup env":
`cfg, err := s.NewSandboxConfig(...); if err != nil { return fmt.Errorf(...) };
return cfg.CleanupFiles(ctx, s.tracer, false)`.  `newConfig` is the configuration
`NewSandboxConfig` builds from the sandbox ID and the template ID when it succeeds. -/
def purgeOne.cleanupEnv (ext : Externals) (newConfig : GoString → GoString → SandboxConfig)
    (sandboxID templateID : GoString) (w : World) : Option GoError × World :=
  match (w.call (.NewSandboxConfig sandboxID templateID)).1 with
  | some err =>
    (some (.wrapf "new sandbox failed: %w" [] err),
      (w.call (.NewSandboxConfig sandboxID templateID)).2)
  | none =>
    (newConfig sandboxID templateID).CleanupFiles ext false
      (w.call (.NewSandboxConfig sandboxID templateID)).2

/-- What `purgeOne` does with the result `err` of a step:
`if err != nil { telemetry.ReportError(ctx, err, attrs...) } else { telemetry.ReportEvent(ctx,
event, eventAttrs...) }; finalErr = errors.Join(finalErr, err)`. -/
def purgeOne.record (event : String) (sandboxID : GoString)
    (eventAttrs : List (String × GoString)) (err finalErr : Option GoError) (w : World) :
    Option GoError × World :=
  (errors.Join [finalErr, err],
    match err with
    | some e => w.report (.Error e [("sandbox-id", sandboxID)])
    | none => w.report (.Event event eventAttrs))

/-- Go `(*server).purgeOne(ctx, sandboxInfo)`. -/
def purgeOne {NetworkEnv : Type} (ext : Externals)
    (newConfig : GoString → GoString → SandboxConfig) (sandboxInfo : SandboxInfo NetworkEnv)
    (w : World) : Option GoError × World :=
  let finalErr : Option GoError := none
  let sandboxID := sandboxInfo.SandboxID
  -- 1. kill process
  let r1 := purgeOne.kill sandboxInfo.Pid w
  let s1 := purgeOne.record "killed orphan sandbox process" sandboxID
    [("sandbox-id", sandboxID)] r1.1 finalErr r1.2
  -- 2. cleanup network
  let r2 := purgeOne.network sandboxID s1.2
  let s2 := purgeOne.record "cleanup network of orphan process" sandboxID
    [("sandbox-id", sandboxID)] r2.1 s1.1 r2.2
  -- 3. cleanup env
  let r3 := purgeOne.cleanupEnv ext newConfig sandboxID sandboxInfo.TemplateID s2.2
  purgeOne.record "cleanup files of orphan process" sandboxID [] r3.1 s2.1 r3.2

/-! ## The vocabulary of the cleanup properties -/

/-- The value of `finalErr` after `finalErr = errors.Join(finalErr, err)` was run, in turn, for
each failed step of the list (a step without error leaves `finalErr` as it is). -/
def joinOnto (finalErr : Option GoError) (errs : List (Option GoError)) : Option GoError :=
  errs.foldl (fun finalErr err =>
    match err with
    | some e => errors.Join [finalErr, some e]
    | none => finalErr) finalErr

/-- The errors of a list of steps joined one after the other, starting from `nil`. -/
def joinFailed (errs : List (Option GoError)) : Option GoError :=
  joinOnto none errs

/-- The error a step reports for the result `r` of its call: `r` wrapped by `format` when the
call failed, nothing when it succeeded. -/
def wrapped (format : String) (r : Option GoError) : Option GoError :=
  r.map (GoError.wrapf format [])

/-- The error `e` is the returned error `r` or one of the errors joined in it. -/
def Reported (r : Option GoError) (e : GoError) : Prop :=
  ∃ outer, r = some outer ∧ outer.Joins e

/-- The calls of the cgroup-removal loop and the error it ends with: the removal of `path` is
tried up to three times, no further once it succeeds, with a sleep of 200ms, 500ms and 1500ms
after the first, second and third failure; `err` is `nil` unless all three attempts failed, and
then the error of the third. -/
def CgroupAttempts (path : GoString) (tr : List Entry) (err : Option GoError) : Prop :=
  (tr = [⟨.Rmdir path, none⟩] ∧ err = none) ∨
  (∃ e1, tr = [⟨.Rmdir path, some e1⟩, ⟨.Sleep 200, none⟩, ⟨.Rmdir path, none⟩] ∧
    err = none) ∨
  (∃ e1 e2, tr = [⟨.Rmdir path, some e1⟩, ⟨.Sleep 200, none⟩, ⟨.Rmdir path, some e2⟩,
    ⟨.Sleep 500, none⟩, ⟨.Rmdir path, none⟩] ∧ err = none) ∨
  (∃ e1 e2 e3, tr = [⟨.Rmdir path, some e1⟩, ⟨.Sleep 200, none⟩,
    ⟨.Rmdir path, some e2⟩, ⟨.Sleep 500, none⟩, ⟨.Rmdir path, some e3⟩,
    ⟨.Sleep 1500, none⟩] ∧ err = some e3)

/-- The calls of one run of `CleanupFiles` and the error it returns: the instance tree removal
(only when the instance directory is not kept), the socket removal, the metrics-target removal,
then the cgroup-removal attempts, each made whatever the earlier ones returned; the returned
error joins the wrapped error of every failed step. -/
def CleanupRun (ext : Externals) (cfg : SandboxConfig) (keepInstanceDir : Bool)
    (tr : List Entry) (err : Option GoError) : Prop :=
  ∃ (instR sockR promR cgR : Option GoError) (cg : List Entry),
    tr = (if keepInstanceDir then [] else [⟨.RemoveAll (cfg.InstancePath ext), instR⟩]) ++
      [⟨.Remove cfg.SocketPath, sockR⟩, ⟨.Remove (cfg.PrometheusTargetPath ext), promR⟩] ++
      cg ∧
    (keepInstanceDir = true → instR = none) ∧
    CgroupAttempts (cfg.CgroupPath ext) cg cgR ∧
    err = joinFailed [wrapped "error deleting env instance files: %w" instR,
      wrapped "error deleting socket: %w" sockR,
      wrapped "error prometheus target path: %w" promR,
      wrapped "error remove cgroup path: %w" cgR]

/-- The calls of step 1 of `purgeOne` and its error: the process is looked up by pid and, when
found, killed. -/
def KillRun (pid : Int) (tr : List Entry) (err : Option GoError) : Prop :=
  (∃ e, tr = [⟨.FindProcess pid, some e⟩] ∧
    err = some (.wrapf "find orphan sandbox with pid %d failed: %w" [.int pid] e)) ∨
  (∃ r, tr = [⟨.FindProcess pid, none⟩, ⟨.Kill pid, r⟩] ∧ err = r)

/-- The calls of step 3 of `purgeOne` and its error: the configuration of the sandbox is built
and, when that succeeds, `CleanupFiles` runs on it without keeping the instance directory. -/
def CleanupEnvRun (ext : Externals) (newConfig : GoString → GoString → SandboxConfig)
    (sandboxID templateID : GoString) (tr : List Entry) (err : Option GoError) : Prop :=
  (∃ e, tr = [⟨.NewSandboxConfig sandboxID templateID, some e⟩] ∧
    err = some (.wrapf "new sandbox failed: %w" [] e)) ∨
  (∃ files, tr = ⟨.NewSandboxConfig sandboxID templateID, none⟩ :: files ∧
    CleanupRun ext (newConfig sandboxID templateID) false files err)

/-! ## Sample values -/

/-- Sample values for what is declared outside the embedded files: the template directory is
the directory named by the template ID under the data root. -/
def sampleExternals : Externals where
  TemplateDir := fun t dataRoot => filepath.Join [dataRoot, t.TemplateID]
  RootfsName := "rootfs.ext4".toList
  WritableFsName := "writable-rootfs.ext4".toList
  CgroupfsPath := "/sys/fs/cgroup".toList
  PrometheusTargetsDirName := "prometheus-targets".toList

/-- A sample configuration: template `tmpl-a` under the data root `/data`, with the given
sandbox ID. -/
def sampleConfig (sandboxID : GoString) : SandboxConfig where
  VMTemplate := ⟨"tmpl-a".toList⟩
  DataRoot := "/data".toList
  SandboxID := sandboxID
  CgroupName := "code-interpreter".toList
  SocketPath := "/tmp/fc.sock".toList
  HypervisorBinaryPath := "/usr/bin/firecracker".toList
  EnableDiffSnapshot := false
  MaxInstanceLength := 0
  Metadata := []

/-- A sample host with nothing recorded yet, on which exactly the calls selected by `fails`
return an error. -/
def sampleWorld (fails : Call → Bool) : World where
  outcome := fun _ c => if fails c then some (.foreign 1) else none
  trace := []
  reports := []

/-- A sample orphan: sandbox `sbx-1` of template `tmpl-a`, process 4242. -/
def sampleInfo : SandboxInfo Unit where
  SandboxID := "sbx-1".toList
  TemplateID := "tmpl-a".toList
  Pid := 4242
  NetEnv := ()

/-- On this sample host the removal of the socket `/tmp/fc.sock` and every removal of a cgroup
directory fail; every other call succeeds. -/
def socketAndCgroupFail : Call → Bool
  | .Remove path => path = "/tmp/fc.sock".toList
  | .Rmdir _ => true
  | _ => false

/-- On this sample host only the removal of a file (socket, metrics-target file) fails. -/
def removeFails : Call → Bool
  | .Remove _ => true
  | _ => false

/-- On this sample host the process lookup and the deletion of the network namespace fail. -/
def findAndNetnsFail : Call → Bool
  | .FindProcess _ => true
  | .DeleteNetns _ => true
  | _ => false

/-- Sample host processes: two launcher processes, of the sandboxes `sbx-1` and `sbx-2`, a shell,
and a process whose command line cannot be read. -/
def sampleProcesses : List Process :=
  [⟨100, .ok "unshare -m -- ip netns exec sbx-1 firecracker --id sbx-1".toList⟩,
   ⟨101, .ok "/bin/bash".toList⟩,
   ⟨102, .error (.foreign 3)⟩,
   ⟨103, .ok "unshare -m -- ip netns exec sbx-2 firecracker --id sbx-2".toList⟩]

/-! # Properties -/

/-! ## Strings -/

theorem strings.HasPrefix_iff (s p : GoString) : strings.HasPrefix s p = true ↔ p <+: s := by
  simp [strings.HasPrefix]

theorem strings.Contains_iff (s substr : GoString) :
    strings.Contains s substr = true ↔ substr <:+: s := by
  induction s with
  | nil => simp [strings.Contains, List.infix_nil, List.prefix_nil]
  | cons c cs ih =>
    simp only [strings.Contains, Bool.or_eq_true, ih, List.isPrefixOf_iff_prefix,
      List.infix_cons_iff]

/-! ## Registry -/

section Registry
variable {Sandbox : Type}

/-- C1. `InsertSandbox` returns whether the sandbox's ID was a key of the table before the call
(`false` on a fresh ID, `true` on a known one); afterwards the ID is a key exactly once and maps
to the inserted sandbox, inserting the same ID again returns `true` and leaves the number of
entries as it is, and the entry of every other ID is what it was. -/
theorem InsertSandbox_spec (SandboxID : Sandbox → GoString) (s : server Sandbox)
    (sbx : Sandbox) :
    ((InsertSandbox SandboxID s sbx).1 = false ↔ SandboxID sbx ∉ s.sandboxes.keys) ∧
    ((InsertSandbox SandboxID s sbx).1 = true ↔ SandboxID sbx ∈ s.sandboxes.keys) ∧
    (InsertSandbox SandboxID s sbx).2.sandboxes.lookup (SandboxID sbx) = some sbx ∧
    (InsertSandbox SandboxID s sbx).2.sandboxes.entries.filter
        (fun e => decide (e.1 = SandboxID sbx)) = [⟨SandboxID sbx, sbx⟩] ∧
    (∀ sbx2 : Sandbox, SandboxID sbx2 = SandboxID sbx →
      (InsertSandbox SandboxID (InsertSandbox SandboxID s sbx).2 sbx2).1 = true ∧
      (InsertSandbox SandboxID (InsertSandbox SandboxID s sbx).2 sbx2).2.sandboxes.entries.length
        = (InsertSandbox SandboxID s sbx).2.sandboxes.entries.length) ∧
    (∀ y : GoString, y ≠ SandboxID sbx →
      (InsertSandbox SandboxID s sbx).2.sandboxes.lookup y = s.sandboxes.lookup y) := by
  have hmem : (s.sandboxes.lookup (SandboxID sbx)).isSome = true ↔
      SandboxID sbx ∈ s.sandboxes.keys := by
    rw [AList.lookup_isSome, AList.mem_keys]
  refine ⟨?_, ?_, ?_, ?_, ?_, ?_⟩
  · simp only [InsertSandbox, ← hmem]
    cases (s.sandboxes.lookup (SandboxID sbx)).isSome <;> simp
  · simpa only [InsertSandbox] using hmem
  · simp [InsertSandbox]
  · have hnot : SandboxID sbx ∉ (List.kerase (SandboxID sbx) s.sandboxes.entries).keys :=
      List.not_mem_keys_kerase _ s.sandboxes.nodupKeys
    simp only [InsertSandbox, AList.insert_entries, List.filter_cons_of_pos, decide_True,
      List.cons.injEq, true_and, List.filter_eq_nil_iff, decide_eq_true_eq]
    intro e he h
    have hk : e.1 ∈ (List.kerase (SandboxID sbx) s.sandboxes.entries).keys :=
      List.mem_keys_of_mem he
    rw [h] at hk
    exact hnot hk
  · intro sbx2 h2
    constructor
    · simp only [InsertSandbox]
      rw [h2, AList.lookup_insert]
      rfl
    · simp only [InsertSandbox, h2, AList.insert_insert]
      simp [AList.insert_entries]
  · intro y hy
    simp [InsertSandbox, AList.lookup_insert_ne hy]

/-- C8. `DelSandbox` returns whether the ID was a key of the table (`false` on an unknown ID,
and then the table is unchanged); afterwards `GetSandbox` does not find the ID, and the entry of
every other ID is what it was. -/
theorem DelSandbox_spec (s : server Sandbox) (x : GoString) :
    ((DelSandbox s x).1 = true ↔ x ∈ s.sandboxes.keys) ∧
    ((DelSandbox s x).1 = false ↔ x ∉ s.sandboxes.keys) ∧
    (x ∉ s.sandboxes.keys → DelSandbox s x = (false, s)) ∧
    x ∉ (DelSandbox s x).2.sandboxes.keys ∧
    GetSandbox (DelSandbox s x).2 x = (none, false) ∧
    (∀ y : GoString, y ≠ x →
      GetSandbox (DelSandbox s x).2 y = GetSandbox s y ∧
      (DelSandbox s x).2.sandboxes.lookup y = s.sandboxes.lookup y) := by
  have hmem : (s.sandboxes.lookup x).isSome = true ↔ x ∈ s.sandboxes.keys := by
    rw [AList.lookup_isSome, AList.mem_keys]
  refine ⟨?_, ?_, ?_, ?_, ?_, ?_⟩
  · simpa only [DelSandbox] using hmem
  · simp only [DelSandbox, ← hmem]
    cases (s.sandboxes.lookup x).isSome <;> simp
  · intro hx
    have h1 : (s.sandboxes.lookup x).isSome = false := by
      cases h : (s.sandboxes.lookup x).isSome
      · rfl
      · exact absurd (hmem.1 h) hx
    have h2 : s.sandboxes.erase x = s.sandboxes :=
      AList.ext (List.kerase_of_not_mem_keys hx)
    cases s
    simp_all [DelSandbox]
  · intro h
    have := AList.mem_keys.2 h
    simp [DelSandbox] at this
  · simp [GetSandbox, DelSandbox]
  · intro y hy
    simp [GetSandbox, DelSandbox, AList.lookup_erase_ne hy]

end Registry

/-! ## Orphan discovery -/

theorem launcherSignature_iff (fc ch sandboxID cmdline : GoString) :
    launcherSignature fc ch sandboxID cmdline = true ↔
      "unshare".toList <+: cmdline ∧ "ip netns exec".toList <:+: cmdline ∧
      (fc <:+: cmdline ∨ ch <:+: cmdline) ∧ sandboxID <:+: cmdline := by
  simp only [launcherSignature, Bool.and_eq_true, Bool.or_eq_true, strings.HasPrefix_iff,
    strings.Contains_iff, and_assoc]

theorem getOrphanProcess.scan_some (fc ch sandboxID : GoString) (ps : List Process)
    (r : Process) :
    getOrphanProcess.scan fc ch sandboxID ps (some r) =
      match launcherMatches fc ch sandboxID ps with
      | [] => .ok (some r)
      | _ :: _ =>
        .error (.errorf "find more than one process match sandbox id %s" [.str sandboxID]) := by
  induction ps with
  | nil => simp [getOrphanProcess.scan, launcherMatches]
  | cons p rest ih =>
    rw [getOrphanProcess.scan]
    cases hc : p.cmdline with
    | error e =>
      have : launcherMatches fc ch sandboxID (p :: rest)
          = launcherMatches fc ch sandboxID rest := by
        simp [launcherMatches, List.filter_cons, hc]
      simp only [this, ih]
    | ok c =>
      by_cases hm : launcherSignature fc ch sandboxID c = true
      · have : launcherMatches fc ch sandboxID (p :: rest) =
            p :: launcherMatches fc ch sandboxID rest := by
          simp [launcherMatches, List.filter_cons, hc, hm]
        simp [hm, this]
      · have : launcherMatches fc ch sandboxID (p :: rest) =
            launcherMatches fc ch sandboxID rest := by
          simp [launcherMatches, List.filter_cons, hc, hm]
        simp only [hm, this, ih]
        simp

theorem getOrphanProcess.scan_none (fc ch sandboxID : GoString) (ps : List Process) :
    getOrphanProcess.scan fc ch sandboxID ps none =
      match launcherMatches fc ch sandboxID ps with
      | [] => .ok none
      | [p] => .ok (some p)
      | _ :: _ :: _ =>
        .error (.errorf "find more than one process match sandbox id %s" [.str sandboxID]) := by
  induction ps with
  | nil => simp [getOrphanProcess.scan, launcherMatches]
  | cons p rest ih =>
    rw [getOrphanProcess.scan]
    cases hc : p.cmdline with
    | error e =>
      have : launcherMatches fc ch sandboxID (p :: rest)
          = launcherMatches fc ch sandboxID rest := by
        simp [launcherMatches, List.filter_cons, hc]
      simp only [this, ih]
    | ok c =>
      by_cases hm : launcherSignature fc ch sandboxID c = true
      · have : launcherMatches fc ch sandboxID (p :: rest) =
            p :: launcherMatches fc ch sandboxID rest := by
          simp [launcherMatches, List.filter_cons, hc, hm]
        simp only [hm, if_true, Option.isSome_none, this, getOrphanProcess.scan_some]
        cases hl : launcherMatches fc ch sandboxID rest with
        | nil => simp
        | cons q qs => simp
      · have : launcherMatches fc ch sandboxID (p :: rest) =
            launcherMatches fc ch sandboxID rest := by
          simp [launcherMatches, List.filter_cons, hc, hm]
        simp only [hm, this, ih]
        simp

/-- C2. Given the list of host processes, `getOrphanProcess` succeeds exactly when one process,
and no other, has a (readable) command line with the launcher signature: it starts with
`unshare`, contains `ip netns exec`, contains the Firecracker or the Cloud-Hypervisor binary name,
and contains the sandbox ID.  It then returns that process.  With no such process it returns the
not-found error and no process; with two or more it returns the more-than-one error and no
process. -/
theorem getOrphanProcess_exactly_one (fc ch sandboxID : GoString) (ps : List Process) :
    (∀ p : Process, p ∈ launcherMatches fc ch sandboxID ps ↔
      p ∈ ps ∧ ∃ c, p.cmdline = .ok c ∧ "unshare".toList <+: c ∧
        "ip netns exec".toList <:+: c ∧ (fc <:+: c ∨ ch <:+: c) ∧ sandboxID <:+: c) ∧
    ((getOrphanProcess fc ch (.ok ps) sandboxID).2 = none ↔
      (launcherMatches fc ch sandboxID ps).length = 1) ∧
    (∀ p : Process, launcherMatches fc ch sandboxID ps = [p] →
      getOrphanProcess fc ch (.ok ps) sandboxID = (some p, none)) ∧
    (launcherMatches fc ch sandboxID ps = [] →
      getOrphanProcess fc ch (.ok ps) sandboxID =
        (none, some (.errorf "cannot find orphan process with sandbox id %s"
          [.str sandboxID]))) ∧
    (2 ≤ (launcherMatches fc ch sandboxID ps).length →
      getOrphanProcess fc ch (.ok ps) sandboxID =
        (none, some (.errorf "find more than one process match sandbox id %s"
          [.str sandboxID]))) := by
  refine ⟨?_, ?_, ?_, ?_, ?_⟩
  · intro p
    simp only [launcherMatches, List.mem_filter]
    constructor
    · rintro ⟨hp, h⟩
      refine ⟨hp, ?_⟩
      cases hc : p.cmdline with
      | error e => simp [hc] at h
      | ok c =>
        simp only [hc] at h
        exact ⟨c, rfl, (launcherSignature_iff _ _ _ _).1 h⟩
    · rintro ⟨hp, c, hc, h⟩
      refine ⟨hp, ?_⟩
      simp only [hc]
      exact (launcherSignature_iff _ _ _ _).2 h
  · simp only [getOrphanProcess, getOrphanProcess.scan_none]
    rcases hl : launcherMatches fc ch sandboxID ps with _ | ⟨p, _ | ⟨q, qs⟩⟩ <;> simp
  · intro p hp
    simp [getOrphanProcess, getOrphanProcess.scan_none, hp]
  · intro h
    simp [getOrphanProcess, getOrphanProcess.scan_none, h]
  · intro h
    simp only [getOrphanProcess, getOrphanProcess.scan_none]
    rcases hl : launcherMatches fc ch sandboxID ps with _ | ⟨p, _ | ⟨q, qs⟩⟩
    · simp [hl] at h
    · simp [hl] at h
    · simp

/-! ## The template-ID pattern -/

theorem templateIDRegex.group_sound (lit : GoString) :
    ∀ (s T : GoString), templateIDRegex.group lit s = some T →
      T ≠ [] ∧ (∀ ch ∈ T, isWordOrHyphen ch = true) ∧ ∃ post, s = T ++ lit ++ post := by
  intro s
  induction s with
  | nil => intro T h; simp [templateIDRegex.group] at h
  | cons c cs ih =>
    intro T h
    rw [templateIDRegex.group] at h
    by_cases hc : isWordOrHyphen c = true
    · simp only [hc, if_true] at h
      cases hg : templateIDRegex.group lit cs with
      | some more =>
        simp only [hg, Option.some.injEq] at h
        obtain ⟨_, hw, post, hp⟩ := ih more hg
        subst h
        refine ⟨List.cons_ne_nil _ _, ?_, post, ?_⟩
        · intro ch hch
          rcases List.mem_cons.1 hch with h1 | h1
          · rw [h1]; exact hc
          · exact hw ch h1
        · simp [hp]
      | none =>
        simp only [hg] at h
        by_cases hl : lit.isPrefixOf cs = true
        · simp only [hl, if_true, Option.some.injEq] at h
          subst h
          obtain ⟨post, hp⟩ := List.isPrefixOf_iff_prefix.1 hl
          refine ⟨List.cons_ne_nil _ _, ?_, post, ?_⟩
          · intro ch hch
            rw [List.mem_singleton.1 hch]; exact hc
          · simp [← hp]
        · simp [hl] at h
    · simp [hc] at h

theorem templateIDRegex.group_complete (l0 : Char) (lit post : GoString)
    (hl0 : isWordOrHyphen l0 = false) :
    ∀ T : GoString, T ≠ [] → (∀ ch ∈ T, isWordOrHyphen ch = true) →
      templateIDRegex.group (l0 :: lit) (T ++ (l0 :: lit) ++ post) = some T := by
  intro T
  induction T with
  | nil => intro h; exact absurd rfl h
  | cons c T ih =>
    intro _ hw
    have hc : isWordOrHyphen c = true := hw c (List.mem_cons_self _ _)
    have hw2 : ∀ ch ∈ T, isWordOrHyphen ch = true :=
      fun ch h => hw ch (List.mem_cons_of_mem _ h)
    cases T with
    | nil =>
      have hnone : templateIDRegex.group (l0 :: lit) ((l0 :: lit) ++ post) = none := by
        simp [templateIDRegex.group, hl0]
      have hpre : (l0 :: lit).isPrefixOf ((l0 :: lit) ++ post) = true :=
        List.isPrefixOf_iff_prefix.2 (List.prefix_append _ _)
      simp only [List.singleton_append, List.cons_append, List.nil_append] at hnone hpre ⊢
      rw [templateIDRegex.group]
      simp only [hc, if_true, hnone, hpre]
    | cons d T =>
      have := ih (List.cons_ne_nil _ _) hw2
      simp only [List.cons_append] at this ⊢
      rw [templateIDRegex.group]
      simp only [hc, if_true, this]

theorem isWordOrHyphen_slash : isWordOrHyphen '/' = false := by decide

theorem templateIDRegex.matchAt_iff (s T : GoString) :
    templateIDRegex.matchAt s = some T ↔ TemplateShapeAt s [] T := by
  constructor
  · intro h
    cases s with
    | nil => simp [templateIDRegex.matchAt] at h
    | cons c cs =>
      rw [templateIDRegex.matchAt] at h
      by_cases hc : c = '/'
      · simp only [hc, if_true] at h
        obtain ⟨h1, h2, post, hp⟩ := templateIDRegex.group_sound _ _ _ h
        refine ⟨h1, h2, post, ?_⟩
        simp [hc, hp]
      · simp [hc] at h
  · rintro ⟨h1, h2, post, hp⟩
    subst hp
    simp only [List.nil_append, templateIDRegex.matchAt, if_true]
    have := templateIDRegex.group_complete '/' (InstancesDirName ++ ['/']) post
      isWordOrHyphen_slash T h1 h2
    simpa using this

theorem TemplateShapeAt_cons (x : Char) (cs pre T : GoString) :
    TemplateShapeAt (x :: cs) pre T ↔
      (pre = [] ∧ TemplateShapeAt (x :: cs) [] T) ∨
      (∃ pre2, pre = x :: pre2 ∧ TemplateShapeAt cs pre2 T) := by
  constructor
  · rintro ⟨h1, h2, post, hp⟩
    cases pre with
    | nil => exact Or.inl ⟨rfl, h1, h2, post, hp⟩
    | cons y pre2 =>
      simp only [List.cons_append, List.cons.injEq] at hp
      refine Or.inr ⟨pre2, ?_, h1, h2, post, hp.2⟩
      rw [hp.1]
  · rintro (⟨rfl, h⟩ | ⟨pre2, rfl, h1, h2, post, hp⟩)
    · exact h
    · exact ⟨h1, h2, post, by simp [hp]⟩

theorem TemplateShapeAt_nil (pre T : GoString) : ¬ TemplateShapeAt [] pre T := by
  rintro ⟨_, _, post, hp⟩
  have := congrArg List.length hp
  simp at this
  omega

theorem TemplateShapeAt_unique (c pre T T2 : GoString) (h : TemplateShapeAt c pre T)
    (h2 : TemplateShapeAt c pre T2) : T = T2 := by
  induction pre generalizing c with
  | nil =>
    have a := (templateIDRegex.matchAt_iff c T).2 h
    have b := (templateIDRegex.matchAt_iff c T2).2 h2
    rw [a] at b
    exact Option.some.inj b
  | cons y pre ih =>
    cases c with
    | nil => exact absurd h (TemplateShapeAt_nil _ _)
    | cons x cs =>
      rcases (TemplateShapeAt_cons x cs (y :: pre) T).1 h with ⟨h0, _⟩ | ⟨p, hp, hs⟩
      · exact absurd h0 (List.cons_ne_nil _ _)
      rcases (TemplateShapeAt_cons x cs (y :: pre) T2).1 h2 with ⟨h0, _⟩ | ⟨p2, hp2, hs2⟩
      · exact absurd h0 (List.cons_ne_nil _ _)
      simp only [List.cons.injEq] at hp hp2
      rw [← hp.2] at hs
      rw [← hp2.2] at hs2
      exact ih cs hs hs2

theorem templateIDRegex.FindStringSubmatch_none (c : GoString) :
    templateIDRegex.FindStringSubmatch c = none ↔ ¬ ∃ pre T, TemplateShapeAt c pre T := by
  induction c with
  | nil =>
    simp only [templateIDRegex.FindStringSubmatch, true_iff]
    rintro ⟨pre, T, h⟩
    exact TemplateShapeAt_nil _ _ h
  | cons x cs ih =>
    rw [templateIDRegex.FindStringSubmatch]
    cases hm : templateIDRegex.matchAt (x :: cs) with
    | some T =>
      simp only [false_iff, not_not, reduceCtorEq]
      exact ⟨[], T, (templateIDRegex.matchAt_iff _ _).1 hm⟩
    | none =>
      simp only [ih]
      constructor
      · rintro h ⟨pre, T, hs⟩
        rcases (TemplateShapeAt_cons x cs pre T).1 hs with ⟨_, h0⟩ | ⟨p, _, hs2⟩
        · rw [(templateIDRegex.matchAt_iff _ _).2 h0] at hm
          exact Option.noConfusion hm
        · exact h ⟨p, T, hs2⟩
      · rintro h ⟨pre, T, hs⟩
        exact h ⟨x :: pre, T, (TemplateShapeAt_cons x cs _ T).2 (Or.inr ⟨pre, rfl, hs⟩)⟩

theorem templateIDRegex.FindStringSubmatch_leftmost (c pre T : GoString)
    (h : TemplateShapeAt c pre T)
    (hmin : ∀ pre2 T2, TemplateShapeAt c pre2 T2 → pre.length ≤ pre2.length) :
    templateIDRegex.FindStringSubmatch c = some T := by
  induction c generalizing pre with
  | nil => exact absurd h (TemplateShapeAt_nil _ _)
  | cons x cs ih =>
    rw [templateIDRegex.FindStringSubmatch]
    cases hm : templateIDRegex.matchAt (x :: cs) with
    | some T2 =>
      have h0 := (templateIDRegex.matchAt_iff _ _).1 hm
      have hl := hmin [] T2 h0
      have hpre : pre = [] := List.eq_nil_of_length_eq_zero (Nat.le_zero.1 hl)
      subst hpre
      simp only
      rw [TemplateShapeAt_unique _ _ _ _ h0 h]
    | none =>
      simp only
      rcases (TemplateShapeAt_cons x cs pre T).1 h with ⟨_, h0⟩ | ⟨p, hp, hs⟩
      · rw [(templateIDRegex.matchAt_iff _ _).2 h0] at hm
        exact Option.noConfusion hm
      · apply ih p hs
        intro pre2 T2 hs2
        have := hmin (x :: pre2) T2
          ((TemplateShapeAt_cons x cs _ T2).2 (Or.inr ⟨pre2, rfl, hs2⟩))
        rw [hp] at this
        simpa using this

/-! ## Paths -/

namespace filepath

theorem split_ne_nil (s : GoString) : split s ≠ [] := by
  cases s with
  | nil => simp [split]
  | cons c cs =>
    rw [split]
    by_cases hc : c = '/'
    · simp [hc]
    · simp only [hc, if_false]
      cases split cs <;> simp

theorem split_append_sep (a b : GoString) : split (a ++ '/' :: b) = split a ++ split b := by
  induction a with
  | nil => simp [split]
  | cons c cs ih =>
    by_cases hc : c = '/'
    · simp [split, hc, ih]
    · simp only [List.cons_append, split, hc, if_false]
      simp only [List.append_eq, ih]
      cases h : split cs with
      | nil => exact absurd h (split_ne_nil cs)
      | cons e es => simp

theorem split_of_not_mem (e : GoString) (h : '/' ∉ e) : split e = [e] := by
  induction e with
  | nil => simp [split]
  | cons c cs ih =>
    have hc : c ≠ '/' := fun hc => h (hc ▸ List.mem_cons_self _ _)
    have hcs : '/' ∉ cs := fun hcs => h (List.mem_cons_of_mem _ hcs)
    simp [split, hc, ih hcs]

theorem not_mem_of_mem_split (s : GoString) : ∀ e ∈ split s, '/' ∉ e := by
  induction s with
  | nil => simp [split]
  | cons c cs ih =>
    intro e he
    rw [split] at he
    by_cases hc : c = '/'
    · simp only [hc, if_true, List.mem_cons] at he
      rcases he with rfl | he
      · simp
      · exact ih e he
    · simp only [hc, if_false] at he
      cases h : split cs with
      | nil => exact absurd h (split_ne_nil cs)
      | cons x xs =>
        rw [h] at he ih
        simp only [List.mem_cons] at he
        rcases he with rfl | he
        · intro hm
          rcases List.mem_cons.1 hm with h1 | h1
          · exact hc h1.symm
          · exact ih x (List.mem_cons_self _ _) h1
        · exact ih e (List.mem_cons_of_mem _ he)

theorem joinSep_cons_cons (e x : GoString) (xs : List GoString) :
    joinSep (e :: x :: xs) = e ++ '/' :: joinSep (x :: xs) := rfl

theorem joinSep_snoc (xs : List GoString) (e : GoString) (h : xs ≠ []) :
    joinSep (xs ++ [e]) = joinSep xs ++ '/' :: e := by
  induction xs with
  | nil => exact absurd rfl h
  | cons x xs ih =>
    cases xs with
    | nil => simp [joinSep]
    | cons y ys =>
      have := ih (List.cons_ne_nil _ _)
      simp only [List.cons_append] at this ⊢
      rw [joinSep_cons_cons, this, joinSep_cons_cons]
      simp

theorem split_joinSep (xs : List GoString) (h : xs ≠ []) (hs : ∀ e ∈ xs, '/' ∉ e) :
    split (joinSep xs) = xs := by
  induction xs with
  | nil => exact absurd rfl h
  | cons x xs ih =>
    cases xs with
    | nil => simpa [joinSep] using split_of_not_mem x (hs x (List.mem_cons_self _ _))
    | cons y ys =>
      rw [joinSep_cons_cons, split_append_sep,
        split_of_not_mem x (hs x (List.mem_cons_self _ _)),
        ih (List.cons_ne_nil _ _) (fun e he => hs e (List.mem_cons_of_mem _ he))]
      rfl

/-- The first element of a joined list starts the joined text, and what follows it is empty or
starts with the separator. -/
theorem joinSep_cons_eq (x : GoString) (xs : List GoString) :
    ∃ t, joinSep (x :: xs) = x ++ t ∧ (t = [] ∨ ∃ u, t = '/' :: u) := by
  cases xs with
  | nil => exact ⟨[], by simp [joinSep], Or.inl rfl⟩
  | cons y ys => exact ⟨'/' :: joinSep (y :: ys), rfl, Or.inr ⟨_, rfl⟩⟩

theorem joinSep_plain (x : GoString) (xs : List GoString) (h1 : x ≠ []) (h2 : x ≠ ['.'])
    (h3 : '/' ∉ x) : Plain (joinSep (x :: xs)) ∧ isRooted (joinSep (x :: xs)) = false := by
  obtain ⟨t, ht, htt⟩ := joinSep_cons_eq x xs
  rw [ht]
  cases x with
  | nil => exact absurd rfl h1
  | cons c cs =>
    have hc : c ≠ '/' := fun hc => h3 (hc ▸ List.mem_cons_self _ _)
    refine ⟨⟨by simp, ?_, ?_⟩, ?_⟩
    · rcases htt with rfl | ⟨u, rfl⟩
      · simpa using h2
      · simp
    · simp only [List.cons_append, ne_eq, List.cons.injEq, not_and]
      intro h
      exact absurd h hc
    · simp [isRooted, hc]

theorem child_of_plain (d e : GoString) (h : Plain d) : child d e = d ++ '/' :: e := by
  simp [child, h.1, h.2.1, h.2.2]

theorem child_injective (d e1 e2 : GoString) (h : child d e1 = child d e2) : e1 = e2 := by
  unfold child at h
  split_ifs at h
  · exact h
  · simpa using h
  · simpa using h

theorem split_child (d e : GoString) (he : '/' ∉ e) :
    ∃ pre, split (child d e) = pre ++ [e] := by
  unfold child
  split_ifs
  · exact ⟨[], by simp [split_of_not_mem e he]⟩
  · exact ⟨[[]], by simp [split, split_of_not_mem e he]⟩
  · exact ⟨split d, by rw [split_append_sep, split_of_not_mem e he]⟩

theorem child_plain (d e : GoString) (he1 : e ≠ []) (he2 : e ≠ ['.']) (he3 : '/' ∉ e) :
    Plain (child d e) := by
  unfold child
  split_ifs with h1 h2
  · refine ⟨he1, he2, ?_⟩
    intro h
    rw [h] at he3
    simp at he3
  · refine ⟨by simp, by simp, ?_⟩
    simpa using he1
  · have hd : 0 < d.length := List.length_pos.2 (fun h0 => h1 (Or.inl h0))
    refine ⟨by simp, ?_, ?_⟩
    · intro h
      have := congrArg List.length h
      rw [List.length_append, List.length_cons, List.length_singleton] at this
      omega
    · intro h
      have := congrArg List.length h
      rw [List.length_append, List.length_cons, List.length_singleton] at this
      omega

theorem cleanStep_ok (rooted : Bool) (out : Cleaned) (e : GoString) (h : out.Ok rooted)
    (he : '/' ∉ e) : (cleanStep rooted out e).Ok rooted := by
  unfold cleanStep
  split_ifs with h1 h2 h3 h4
  · exact h
  · exact ⟨fun x hx => h.1 x (List.mem_of_mem_dropLast hx), h.2⟩
  · exact h
  · exact ⟨h.1, fun hr => absurd hr h4⟩
  · refine ⟨?_, h.2⟩
    intro x hx
    rcases List.mem_append.1 hx with hx | hx
    · exact h.1 x hx
    · rw [List.mem_singleton.1 hx]
      exact ⟨fun h0 => h1 (Or.inl h0), he, fun h0 => h1 (Or.inr h0), h2⟩

theorem foldl_cleanStep_ok (rooted : Bool) (es : List GoString) (hs : ∀ e ∈ es, '/' ∉ e) :
    ∀ out : Cleaned, out.Ok rooted → (es.foldl (cleanStep rooted) out).Ok rooted := by
  induction es with
  | nil => intro out h; exact h
  | cons e es ih =>
    intro out h
    exact ih (fun x hx => hs x (List.mem_cons_of_mem _ hx)) _
      (cleanStep_ok rooted out e h (hs e (List.mem_cons_self _ _)))

theorem cleanStep_elem (rooted : Bool) (out : Cleaned) (e : GoString) (he : IsElem e) :
    cleanStep rooted out e = ⟨out.dotdot, out.names ++ [e]⟩ := by
  simp [cleanStep, he.1, he.2.2.1, he.2.2.2]

theorem foldl_cleanStep_names (rooted : Bool) (es : List GoString) (hs : ∀ e ∈ es, IsElem e) :
    ∀ out : Cleaned, es.foldl (cleanStep rooted) out = ⟨out.dotdot, out.names ++ es⟩ := by
  induction es with
  | nil => intro out; simp
  | cons e es ih =>
    intro out
    rw [List.foldl_cons, cleanStep_elem rooted out e (hs e (List.mem_cons_self _ _)),
      ih (fun x hx => hs x (List.mem_cons_of_mem _ hx))]
    simp

theorem foldl_cleanStep_dotdot (k : Nat) :
    ∀ d : Nat, (List.replicate k ['.', '.']).foldl (cleanStep false) ⟨d, []⟩ = ⟨d + k, []⟩ := by
  induction k with
  | zero => intro d; simp
  | succ k ih =>
    intro d
    rw [List.replicate_succ, List.foldl_cons]
    have : cleanStep false ⟨d, []⟩ ['.', '.'] = ⟨d + 1, []⟩ := by simp [cleanStep]
    rw [this, ih]
    congr 1
    omega

end filepath

namespace filepath

theorem dotdot_ne (k : Nat) (names : List GoString) (hn : ∀ e ∈ names, IsElem e) :
    ∀ e ∈ List.replicate k ['.', '.'] ++ names, e ≠ [] ∧ e ≠ ['.'] ∧ '/' ∉ e := by
  intro e he
  rcases List.mem_append.1 he with h | h
  · rw [(List.mem_replicate.1 h).2]
    decide
  · exact ⟨(hn e h).1, (hn e h).2.2.1, (hn e h).2.1⟩

theorem render_snoc (rooted : Bool) (out : Cleaned) (e : GoString) (h : out.Ok rooted) :
    render rooted ⟨out.dotdot, out.names ++ [e]⟩ = child (render rooted out) e := by
  have hall := dotdot_ne out.dotdot out.names h.1
  cases hl : List.replicate out.dotdot ['.', '.'] ++ out.names with
  | nil =>
    have h1 : List.replicate out.dotdot ['.', '.'] = [] := (List.append_eq_nil.1 hl).1
    have h2 : out.names = [] := (List.append_eq_nil.1 hl).2
    cases rooted <;> simp [render, h1, h2, child, joinSep]
  | cons x xs =>
    have hx := hall x (hl ▸ List.mem_cons_self _ _)
    obtain ⟨hp, _⟩ := joinSep_plain x xs hx.1 hx.2.1 hx.2.2
    have hsn : joinSep (List.replicate out.dotdot ['.', '.'] ++ (out.names ++ [e])) =
        joinSep (x :: xs) ++ '/' :: e := by
      rw [← List.append_assoc, hl, joinSep_snoc _ _ (List.cons_ne_nil _ _)]
    cases rooted
    · have hne : List.replicate out.dotdot ['.', '.'] ++ (out.names ++ [e]) ≠ [] := by simp
      simp only [render, hl, hsn, hne, if_false, Bool.false_eq_true, reduceCtorEq]
      rw [child_of_plain _ _ hp]
    · simp only [render, hl, hsn, if_true]
      have hp2 : Plain ('/' :: joinSep (x :: xs)) := by
        refine ⟨by simp, by simp, ?_⟩
        simpa using hp.1
      rw [child_of_plain _ _ hp2]
      simp

theorem render_ne_nil (rooted : Bool) (out : Cleaned) (h : out.Ok rooted) :
    render rooted out ≠ [] := by
  have hall := dotdot_ne out.dotdot out.names h.1
  cases hl : List.replicate out.dotdot ['.', '.'] ++ out.names with
  | nil => cases rooted <;> simp [render, hl]
  | cons x xs =>
    have hx := hall x (hl ▸ List.mem_cons_self _ _)
    obtain ⟨hp, _⟩ := joinSep_plain x xs hx.1 hx.2.1 hx.2.2
    cases rooted
    · simpa [render, hl] using hp.1
    · simp [render, hl]

theorem Clean_render (rooted : Bool) (out : Cleaned) (h : out.Ok rooted) :
    Clean (render rooted out) = render rooted out := by
  have hall := dotdot_ne out.dotdot out.names h.1
  have hsl : ∀ e ∈ List.replicate out.dotdot ['.', '.'] ++ out.names, '/' ∉ e :=
    fun e he => (hall e he).2.2
  rw [Clean, if_neg (render_ne_nil rooted out h)]
  cases rooted with
  | true =>
    have hd : out.dotdot = 0 := h.2 rfl
    have hr : render true out = '/' :: joinSep out.names := by simp [render, hd]
    rw [hr]
    have hroot : isRooted ('/' :: joinSep out.names) = true := by simp [isRooted]
    rw [hroot]
    have hsp : split ('/' :: joinSep out.names) = [] :: split (joinSep out.names) := by
      simp [split]
    rw [hsp, List.foldl_cons]
    have h0 : cleanStep true ⟨0, []⟩ [] = ⟨0, []⟩ := by simp [cleanStep]
    rw [h0]
    cases hn : out.names with
    | nil => simp [joinSep, split, cleanStep, render]
    | cons x xs =>
      rw [← hn, split_joinSep out.names (by simp [hn]) (by simpa [hd] using hsl),
        foldl_cleanStep_names true out.names h.1]
      simp [render]
  | false =>
    cases hl : List.replicate out.dotdot ['.', '.'] ++ out.names with
    | nil =>
      have hr : render false out = ['.'] := by simp [render, hl]
      rw [hr]
      decide
    | cons x xs =>
      have hx := hall x (hl ▸ List.mem_cons_self _ _)
      obtain ⟨_, hroot⟩ := joinSep_plain x xs hx.1 hx.2.1 hx.2.2
      have hr : render false out = joinSep (x :: xs) := by simp [render, hl]
      have hne : List.replicate out.dotdot ['.', '.'] ++ out.names ≠ [] := by
        rw [hl]
        exact List.cons_ne_nil _ _
      rw [hr, hroot, ← hl, split_joinSep _ hne hsl, List.foldl_append,
        foldl_cleanStep_dotdot, foldl_cleanStep_names false out.names h.1]
      unfold render
      simp only [Nat.zero_add, List.nil_append]
      rw [if_neg (by simp), if_neg hne]

/-- What `Clean` computes on a non-empty path, and on that path extended by one element. -/
theorem Clean_eq_render (p : GoString) (hp : p ≠ []) :
    ∃ out : Cleaned, out.Ok (isRooted p) ∧ Clean p = render (isRooted p) out ∧
      ∀ e, IsElem e →
        Clean (p ++ '/' :: e) = render (isRooted p) ⟨out.dotdot, out.names ++ [e]⟩ := by
  refine ⟨(split p).foldl (cleanStep (isRooted p)) ⟨0, []⟩, ?_, ?_, ?_⟩
  · exact foldl_cleanStep_ok _ _ (not_mem_of_mem_split p) _
      ⟨by simp, fun _ => rfl⟩
  · rw [Clean, if_neg hp]
  · intro e he
    have hr : isRooted (p ++ '/' :: e) = isRooted p := by
      cases p with
      | nil => exact absurd rfl hp
      | cons c cs => simp [isRooted]
    rw [Clean, if_neg (by simp), hr, split_append_sep, split_of_not_mem e he.2.1,
      List.foldl_append, List.foldl_cons, List.foldl_nil, cleanStep_elem _ _ _ he]

theorem Clean_append_elem (p e : GoString) (hp : p ≠ []) (he : IsElem e) :
    Clean (p ++ '/' :: e) = child (Clean p) e := by
  obtain ⟨out, hok, h1, h2⟩ := Clean_eq_render p hp
  rw [h2 e he, h1, render_snoc _ _ _ hok]

theorem Clean_idem (p : GoString) : Clean (Clean p) = Clean p := by
  by_cases hp : p = []
  · subst hp
    decide
  · obtain ⟨out, hok, h1, _⟩ := Clean_eq_render p hp
    rw [h1, Clean_render _ _ hok]

theorem Clean_ne_nil (p : GoString) : Clean p ≠ [] := by
  by_cases hp : p = []
  · subst hp
    decide
  · obtain ⟨out, hok, h1, _⟩ := Clean_eq_render p hp
    rw [h1]
    exact render_ne_nil _ _ hok

theorem Clean_elem (e : GoString) (he : IsElem e) : Clean e = e := by
  have hr : isRooted e = false := by
    cases e with
    | nil => exact absurd rfl he.1
    | cons c cs =>
      have hc : c ≠ '/' := fun hc => he.2.1 (hc ▸ List.mem_cons_self _ _)
      simp [isRooted, hc]
  rw [Clean, if_neg he.1, hr, split_of_not_mem e he.2.1, List.foldl_cons, List.foldl_nil,
    cleanStep_elem _ _ _ he]
  simp [render, joinSep]

theorem dropWhile_nil_snoc (l : List GoString) (e : GoString) (he : e ≠ []) :
    (l ++ [e]).dropWhile (fun x => decide (x = [])) =
      l.dropWhile (fun x => decide (x = [])) ++ [e] := by
  induction l with
  | nil => simp [List.dropWhile, he]
  | cons x xs ih =>
    by_cases hx : x = []
    · simp [List.dropWhile, hx, ih]
    · simp [List.dropWhile, hx]

theorem head_dropWhile_nil (l : List GoString) (x : GoString) (xs : List GoString)
    (h : l.dropWhile (fun x => decide (x = [])) = x :: xs) : x ≠ [] := by
  induction l with
  | nil => simp at h
  | cons y ys ih =>
    by_cases hy : y = []
    · simp only [List.dropWhile, hy, decide_True] at h
      exact ih h
    · simp only [List.dropWhile, hy, decide_False, List.cons.injEq] at h
      rw [← h.1]
      exact hy

/-- Joining one more clean element onto a list of path elements names the entry of that name in
the directory the list joins to. -/
theorem Join_snoc (l : List GoString) (e : GoString) (he : IsElem e) :
    Join (l ++ [e]) = child (Join l) e := by
  unfold Join
  rw [dropWhile_nil_snoc l e he.1]
  cases hl : l.dropWhile (fun x => decide (x = [])) with
  | nil =>
    simp only [List.nil_append, joinSep]
    rw [Clean_elem e he]
    simp [child]
  | cons x xs =>
    have hx := head_dropWhile_nil l x xs hl
    have hne : joinSep (x :: xs) ≠ [] := by
      obtain ⟨t, ht, _⟩ := joinSep_cons_eq x xs
      rw [ht]
      simp [hx]
    simp only [List.cons_append]
    rw [← List.cons_append, joinSep_snoc _ _ (List.cons_ne_nil _ _),
      Clean_append_elem _ _ hne he]

theorem Join_singleton_Join (l : List GoString) : Join [Join l] = Join l := by
  by_cases h : Join l = []
  · rw [h]
    rfl
  · have hc : ∃ p, Join l = Clean p := by
      unfold Join at h ⊢
      cases hl : l.dropWhile (fun x => decide (x = [])) with
      | nil => simp [hl] at h
      | cons x xs => exact ⟨_, rfl⟩
    obtain ⟨p, hp⟩ := hc
    have : ∀ X : GoString, X ≠ [] → Join [X] = Clean X := by
      intro X hX
      simp [Join, List.dropWhile, hX, joinSep]
    rw [this _ h, hp, Clean_idem]

theorem Join_plain_of_snoc (l : List GoString) (e : GoString) (he : IsElem e) :
    Plain (Join (l ++ [e])) := by
  rw [Join_snoc l e he]
  exact child_plain _ _ he.1 he.2.2.1 he.2.1

end filepath

/-! ## Resource layout -/

theorem InstancesDirName_isElem : filepath.IsElem InstancesDirName := by decide

theorem SandboxConfig.InstancePath_eq_child (ext : Externals) (cfg : SandboxConfig)
    (hS : filepath.IsElem cfg.SandboxID) :
    cfg.InstancePath ext =
      filepath.child (filepath.child
        (filepath.Join [ext.TemplateDir cfg.VMTemplate cfg.DataRoot]) InstancesDirName)
        cfg.SandboxID := by
  have h1 := filepath.Join_snoc
    [ext.TemplateDir cfg.VMTemplate cfg.DataRoot, InstancesDirName] cfg.SandboxID hS
  have h2 := filepath.Join_snoc
    [ext.TemplateDir cfg.VMTemplate cfg.DataRoot] InstancesDirName InstancesDirName_isElem
  simp only [List.cons_append, List.nil_append] at h1 h2
  rw [SandboxConfig.InstancePath, h1, h2]

theorem SandboxConfig.InstancePath_child_eq (ext : Externals) (cfg : SandboxConfig)
    (e : GoString) (hS : filepath.IsElem cfg.SandboxID) (he : filepath.IsElem e) :
    filepath.Join [cfg.InstancePath ext, e] = cfg.InstancePath ext ++ '/' :: e := by
  have h1 := filepath.Join_snoc [cfg.InstancePath ext] e he
  simp only [List.cons_append, List.nil_append] at h1
  have hp : filepath.Plain (cfg.InstancePath ext) :=
    filepath.Join_plain_of_snoc
      [ext.TemplateDir cfg.VMTemplate cfg.DataRoot, InstancesDirName] cfg.SandboxID hS
  have h2 : filepath.Join [cfg.InstancePath ext] = cfg.InstancePath ext := by
    rw [SandboxConfig.InstancePath, filepath.Join_singleton_Join]
  rw [h1, h2, filepath.child_of_plain _ _ hp]

theorem SandboxConfig.InstancePath_split (ext : Externals) (cfg : SandboxConfig)
    (hS : filepath.IsElem cfg.SandboxID) :
    ∃ pre, filepath.split (cfg.InstancePath ext) = pre ++ [InstancesDirName, cfg.SandboxID] := by
  rw [SandboxConfig.InstancePath_eq_child ext cfg hS]
  have hp : filepath.Plain
      (filepath.child (filepath.Join [ext.TemplateDir cfg.VMTemplate cfg.DataRoot])
        InstancesDirName) :=
    filepath.child_plain _ _ InstancesDirName_isElem.1 InstancesDirName_isElem.2.2.1
      InstancesDirName_isElem.2.1
  obtain ⟨pre, hpre⟩ := filepath.split_child
    (filepath.Join [ext.TemplateDir cfg.VMTemplate cfg.DataRoot]) InstancesDirName
    InstancesDirName_isElem.2.1
  refine ⟨pre, ?_⟩
  rw [filepath.child_of_plain _ _ hp, filepath.split_append_sep, hpre,
    filepath.split_of_not_mem _ hS.2.1]
  simp

theorem filepath.plain_of_split_snoc (d T : GoString) (pre : List GoString)
    (hT : filepath.IsElem T) (h : filepath.split d = pre ++ [T]) : filepath.Plain d := by
  refine ⟨?_, ?_, ?_⟩
  · rintro rfl
    cases pre with
    | nil => exact hT.1 (by simpa [filepath.split] using h.symm)
    | cons a as => simp [filepath.split] at h
  · rintro rfl
    cases pre with
    | nil => exact hT.2.2.1 (by simpa [filepath.split] using h.symm)
    | cons a as => simp [filepath.split] at h
  · rintro rfl
    rcases pre with _ | ⟨a, _ | ⟨b, bs⟩⟩
    · simp [filepath.split] at h
    · simp only [filepath.split, if_true, List.singleton_append, List.cons.injEq,
        and_true] at h
      exact hT.1 h.2.symm
    · simp [filepath.split] at h

/-- C5, the claim as stated does not hold.  The sample sandbox `sbx-1` of template `tmpl-a` has
the instance path `/data/tmpl-a/instances/sbx-1` when the template directory is
`/data/tmpl-a`, and whatever the template directory is, the last three components of its
instance path are not `instances`, `tmpl-a`, `sbx-1`. -/
theorem InstancePath_not_instances_template_sandbox :
    (sampleConfig "sbx-1".toList).InstancePath sampleExternals
        = "/data/tmpl-a/instances/sbx-1".toList ∧
    ¬ ∃ (ext : Externals) (pre : List GoString),
        filepath.split ((sampleConfig "sbx-1".toList).InstancePath ext)
          = pre ++ [InstancesDirName, "tmpl-a".toList, "sbx-1".toList] := by
  refine ⟨by decide, ?_⟩
  rintro ⟨ext, pre, h⟩
  obtain ⟨pre2, h2⟩ := SandboxConfig.InstancePath_split ext (sampleConfig "sbx-1".toList)
    (by decide)
  rw [h2] at h
  have := congrArg (fun l => (l.reverse).tail.head?) h
  simp [sampleConfig] at this
  exact absurd this (by decide)

/-- C5, as amended.  For a sandbox ID `S` that is a single clean path component, the instance
path ends in the components `instances`, `S`; when the cleaned template directory ends in the
component `T`, the instance path ends in `T`, `instances`, `S`, in that order; and the instance
rootfs path and the instance writable-rootfs path are the entries of the instance directory
named by the rootfs and the writable-rootfs file names. -/
theorem InstancePath_layout (ext : Externals) (cfg : SandboxConfig)
    (hS : filepath.IsElem cfg.SandboxID) (hR : filepath.IsElem ext.RootfsName)
    (hW : filepath.IsElem ext.WritableFsName) :
    (∃ pre, filepath.split (cfg.InstancePath ext) = pre ++ [InstancesDirName, cfg.SandboxID]) ∧
    (∀ T : GoString, filepath.IsElem T →
      (∃ pre, filepath.split (filepath.Join [ext.TemplateDir cfg.VMTemplate cfg.DataRoot])
        = pre ++ [T]) →
      ∃ pre, filepath.split (cfg.InstancePath ext)
        = pre ++ [T, InstancesDirName, cfg.SandboxID]) ∧
    cfg.InstanceRootfsPath ext = cfg.InstancePath ext ++ '/' :: ext.RootfsName ∧
    cfg.InstanceWritableRootfsPath ext = cfg.InstancePath ext ++ '/' :: ext.WritableFsName := by
  refine ⟨SandboxConfig.InstancePath_split ext cfg hS, ?_,
    SandboxConfig.InstancePath_child_eq ext cfg _ hS hR,
    SandboxConfig.InstancePath_child_eq ext cfg _ hS hW⟩
  rintro T hT ⟨pre, hpre⟩
  have hp := filepath.plain_of_split_snoc _ T pre hT hpre
  have hp2 : filepath.Plain
      (filepath.child (filepath.Join [ext.TemplateDir cfg.VMTemplate cfg.DataRoot])
        InstancesDirName) :=
    filepath.child_plain _ _ InstancesDirName_isElem.1 InstancesDirName_isElem.2.2.1
      InstancesDirName_isElem.2.1
  refine ⟨pre, ?_⟩
  rw [SandboxConfig.InstancePath_eq_child ext cfg hS, filepath.child_of_plain _ _ hp2,
    filepath.child_of_plain _ _ hp, filepath.split_append_sep, filepath.split_append_sep, hpre,
    filepath.split_of_not_mem _ hS.2.1,
    filepath.split_of_not_mem _ InstancesDirName_isElem.2.1]
  simp

/-- C5, the amended layout at the sample sandbox `sbx-1` of template `tmpl-a`. -/
theorem InstancePath_layout_witness :
    (∃ pre, filepath.split ((sampleConfig "sbx-1".toList).InstancePath sampleExternals)
      = pre ++ [InstancesDirName, "sbx-1".toList]) ∧
    (sampleConfig "sbx-1".toList).InstanceRootfsPath sampleExternals
      = "/data/tmpl-a/instances/sbx-1/rootfs.ext4".toList :=
  ⟨(InstancePath_layout sampleExternals (sampleConfig "sbx-1".toList)
      (by decide) (by decide) (by decide)).1,
    by decide⟩

theorem SandboxConfig.InstancePath_injective (ext : Externals) (cfg1 cfg2 : SandboxConfig)
    (hT : cfg1.VMTemplate = cfg2.VMTemplate) (hD : cfg1.DataRoot = cfg2.DataRoot)
    (h1 : filepath.IsElem cfg1.SandboxID) (h2 : filepath.IsElem cfg2.SandboxID)
    (h : cfg1.InstancePath ext = cfg2.InstancePath ext) : cfg1.SandboxID = cfg2.SandboxID := by
  rw [SandboxConfig.InstancePath_eq_child ext cfg1 h1,
    SandboxConfig.InstancePath_eq_child ext cfg2 h2, hT, hD] at h
  exact filepath.child_injective _ _ _ h

theorem filepath.isElem_json (S : GoString) (h : '/' ∉ S) :
    filepath.IsElem (S ++ ".json".toList) := by
  refine ⟨by simp, ?_, ?_, ?_⟩
  · intro hm
    rcases List.mem_append.1 hm with h1 | h1
    · exact h h1
    · exact absurd h1 (by decide)
  · intro h0
    have := congrArg List.length h0
    simp at this
  · intro h0
    have := congrArg List.length h0
    simp at this

/-- C6, the claim as stated does not hold.  The sandbox IDs `a` and `./a` are different strings,
and with everything else equal all five derived paths are the same for both. -/
theorem derived_paths_collide :
    (sampleConfig "a".toList).SandboxID ≠ (sampleConfig "./a".toList).SandboxID ∧
    (sampleConfig "a".toList).InstancePath sampleExternals
      = (sampleConfig "./a".toList).InstancePath sampleExternals ∧
    (sampleConfig "a".toList).InstanceRootfsPath sampleExternals
      = (sampleConfig "./a".toList).InstanceRootfsPath sampleExternals ∧
    (sampleConfig "a".toList).InstanceWritableRootfsPath sampleExternals
      = (sampleConfig "./a".toList).InstanceWritableRootfsPath sampleExternals ∧
    (sampleConfig "a".toList).CgroupPath sampleExternals
      = (sampleConfig "./a".toList).CgroupPath sampleExternals ∧
    (sampleConfig "a".toList).PrometheusTargetPath sampleExternals
      = (sampleConfig "./a".toList).PrometheusTargetPath sampleExternals := by
  decide

/-- C6, as amended.  Two configurations with the same template, data root and cgroup name and
with different sandbox IDs, each a single clean path component, differ in the instance path, the
instance rootfs path, the instance writable-rootfs path, the cgroup path and the
metrics-target path (the rootfs and writable-rootfs file names being single clean path
components). -/
theorem derived_paths_injective (ext : Externals) (cfg1 cfg2 : SandboxConfig)
    (hT : cfg1.VMTemplate = cfg2.VMTemplate) (hD : cfg1.DataRoot = cfg2.DataRoot)
    (hC : cfg1.CgroupName = cfg2.CgroupName)
    (h1 : filepath.IsElem cfg1.SandboxID) (h2 : filepath.IsElem cfg2.SandboxID)
    (hR : filepath.IsElem ext.RootfsName) (hW : filepath.IsElem ext.WritableFsName)
    (hne : cfg1.SandboxID ≠ cfg2.SandboxID) :
    cfg1.InstancePath ext ≠ cfg2.InstancePath ext ∧
    cfg1.InstanceRootfsPath ext ≠ cfg2.InstanceRootfsPath ext ∧
    cfg1.InstanceWritableRootfsPath ext ≠ cfg2.InstanceWritableRootfsPath ext ∧
    cfg1.CgroupPath ext ≠ cfg2.CgroupPath ext ∧
    cfg1.PrometheusTargetPath ext ≠ cfg2.PrometheusTargetPath ext := by
  have hI : cfg1.InstancePath ext ≠ cfg2.InstancePath ext :=
    fun h => hne (SandboxConfig.InstancePath_injective ext cfg1 cfg2 hT hD h1 h2 h)
  refine ⟨hI, ?_, ?_, ?_, ?_⟩
  · intro h
    rw [SandboxConfig.InstanceRootfsPath, SandboxConfig.InstanceRootfsPath,
      SandboxConfig.InstancePath_child_eq ext cfg1 _ h1 hR,
      SandboxConfig.InstancePath_child_eq ext cfg2 _ h2 hR] at h
    exact hI (List.append_cancel_right h)
  · intro h
    rw [SandboxConfig.InstanceWritableRootfsPath, SandboxConfig.InstanceWritableRootfsPath,
      SandboxConfig.InstancePath_child_eq ext cfg1 _ h1 hW,
      SandboxConfig.InstancePath_child_eq ext cfg2 _ h2 hW] at h
    exact hI (List.append_cancel_right h)
  · intro h
    have e1 := filepath.Join_snoc [ext.CgroupfsPath, cfg1.CgroupName] cfg1.SandboxID h1
    have e2 := filepath.Join_snoc [ext.CgroupfsPath, cfg2.CgroupName] cfg2.SandboxID h2
    simp only [List.cons_append, List.nil_append] at e1 e2
    rw [SandboxConfig.CgroupPath, SandboxConfig.CgroupPath, e1, e2, hC] at h
    exact hne (filepath.child_injective _ _ _ h)
  · intro h
    have e1 := filepath.Join_snoc
      [cfg1.DataRoot, ext.PrometheusTargetsDirName, cfg1.VMTemplate.TemplateID]
      (cfg1.SandboxID ++ ".json".toList) (filepath.isElem_json _ h1.2.1)
    have e2 := filepath.Join_snoc
      [cfg2.DataRoot, ext.PrometheusTargetsDirName, cfg2.VMTemplate.TemplateID]
      (cfg2.SandboxID ++ ".json".toList) (filepath.isElem_json _ h2.2.1)
    simp only [List.cons_append, List.nil_append] at e1 e2
    rw [SandboxConfig.PrometheusTargetPath, SandboxConfig.PrometheusTargetPath, e1, e2, hT,
      hD] at h
    exact hne (List.append_cancel_right (filepath.child_injective _ _ _ h))

/-- C6, the amended claim at the sample sandboxes `sbx-1` and `sbx-2`. -/
theorem derived_paths_injective_witness :
    (sampleConfig "sbx-1".toList).InstancePath sampleExternals
      ≠ (sampleConfig "sbx-2".toList).InstancePath sampleExternals ∧
    (sampleConfig "sbx-1".toList).InstanceRootfsPath sampleExternals
      ≠ (sampleConfig "sbx-2".toList).InstanceRootfsPath sampleExternals ∧
    (sampleConfig "sbx-1".toList).InstanceWritableRootfsPath sampleExternals
      ≠ (sampleConfig "sbx-2".toList).InstanceWritableRootfsPath sampleExternals ∧
    (sampleConfig "sbx-1".toList).CgroupPath sampleExternals
      ≠ (sampleConfig "sbx-2".toList).CgroupPath sampleExternals ∧
    (sampleConfig "sbx-1".toList).PrometheusTargetPath sampleExternals
      ≠ (sampleConfig "sbx-2".toList).PrometheusTargetPath sampleExternals :=
  derived_paths_injective sampleExternals (sampleConfig "sbx-1".toList)
    (sampleConfig "sbx-2".toList) rfl rfl rfl (by decide) (by decide) (by decide) (by decide)
    (by decide)

/-! ## Parsing the template ID -/

/-- C7, the claim as stated does not hold in its last part.  The sample sandbox with the ID `..`
has the template directory `/data/tmpl-a`, whose last component is the template ID `tmpl-a`, and
the instance path `/data/tmpl-a`; the sample sandbox `sbx-1` under the empty data root has the
template directory `tmpl-a` and the instance path `tmpl-a/instances/sbx-1`.  A command line
that is either instance path has the shape `/T/instances/` nowhere (so nowhere earlier), and the
parse returns the error, not `tmpl-a`. -/
theorem parseTemplateId_instance_path_without_shape :
    (filepath.Join [sampleExternals.TemplateDir (sampleConfig "..".toList).VMTemplate
        (sampleConfig "..".toList).DataRoot] = "/data/tmpl-a".toList ∧
      (sampleConfig "..".toList).InstancePath sampleExternals = "/data/tmpl-a".toList ∧
      (¬ ∃ pre T, TemplateShapeAt ((sampleConfig "..".toList).InstancePath sampleExternals)
        pre T) ∧
      parseTemplateIdFromOrphanProcess
          ⟨4242, .ok ((sampleConfig "..".toList).InstancePath sampleExternals)⟩ =
        ([], some (.errorf "cannot parse env id from orphan process (cmdline: %s)"
          [.str "/data/tmpl-a".toList]))) ∧
    (filepath.Join [sampleExternals.TemplateDir
        { sampleConfig "sbx-1".toList with DataRoot := [] }.VMTemplate []] = "tmpl-a".toList ∧
      { sampleConfig "sbx-1".toList with DataRoot := [] }.InstancePath sampleExternals =
        "tmpl-a/instances/sbx-1".toList ∧
      (¬ ∃ pre T, TemplateShapeAt
        ({ sampleConfig "sbx-1".toList with DataRoot := [] }.InstancePath sampleExternals)
        pre T) ∧
      parseTemplateIdFromOrphanProcess
          ⟨4242, .ok ({ sampleConfig "sbx-1".toList with DataRoot := [] }.InstancePath
            sampleExternals)⟩ =
        ([], some (.errorf "cannot parse env id from orphan process (cmdline: %s)"
          [.str "tmpl-a/instances/sbx-1".toList]))) := by
  refine ⟨⟨by decide, by decide, ?_, rfl⟩, ⟨by decide, by decide, ?_, rfl⟩⟩
  · exact (templateIDRegex.FindStringSubmatch_none _).1 (by decide)
  · exact (templateIDRegex.FindStringSubmatch_none _).1 (by decide)

/-- C7, as amended.  For a process with the readable command line `c`,
`parseTemplateIdFromOrphanProcess` returns an error exactly when `c` has nowhere the shape
`/T/instances/` with `T` a non-empty text over (ASCII) letters, digits, underscore and hyphen;
otherwise it returns, without error, the `T` of the occurrence that starts leftmost.  In
particular, when `c` contains the instance path of a sandbox whose ID is a single clean path
component and whose cleaned template directory ends in `/T`, and the shape occurs nowhere
before that `T`, the result is `T`. -/
theorem parseTemplateId_leftmost_shape (pid : Int) (c : GoString) :
    ((parseTemplateIdFromOrphanProcess ⟨pid, .ok c⟩).2.isSome = true ↔
      ¬ ∃ pre T, TemplateShapeAt c pre T) ∧
    (∀ pre T, TemplateShapeAt c pre T →
      (∀ pre2 T2, TemplateShapeAt c pre2 T2 → pre.length ≤ pre2.length) →
      parseTemplateIdFromOrphanProcess ⟨pid, .ok c⟩ = (T, none)) ∧
    (∀ (ext : Externals) (cfg : SandboxConfig) (parent T before after : GoString),
      filepath.IsElem cfg.SandboxID →
      T ≠ [] → (∀ ch ∈ T, isWordOrHyphen ch = true) →
      filepath.Join [ext.TemplateDir cfg.VMTemplate cfg.DataRoot] = parent ++ '/' :: T →
      c = before ++ cfg.InstancePath ext ++ after →
      (∀ pre2 T2, TemplateShapeAt c pre2 T2 → (before ++ parent).length ≤ pre2.length) →
      parseTemplateIdFromOrphanProcess ⟨pid, .ok c⟩ = (T, none)) := by
  have hleft : ∀ pre T, TemplateShapeAt c pre T →
      (∀ pre2 T2, TemplateShapeAt c pre2 T2 → pre.length ≤ pre2.length) →
      parseTemplateIdFromOrphanProcess ⟨pid, .ok c⟩ = (T, none) := by
    intro pre T hs hmin
    simp only [parseTemplateIdFromOrphanProcess,
      templateIDRegex.FindStringSubmatch_leftmost c pre T hs hmin]
  refine ⟨?_, hleft, ?_⟩
  · rw [← templateIDRegex.FindStringSubmatch_none]
    simp only [parseTemplateIdFromOrphanProcess]
    cases templateIDRegex.FindStringSubmatch c <;> simp
  · intro ext cfg parent T before after hS hT hw hdir hc hmin
    apply hleft (before ++ parent) T _ hmin
    refine ⟨hT, hw, cfg.SandboxID ++ after, ?_⟩
    have hp : filepath.Plain (parent ++ '/' :: T) := by
      refine ⟨by simp, ?_, ?_⟩
      · intro h
        have := congrArg List.length h
        rw [List.length_append, List.length_cons, List.length_singleton] at this
        have := List.length_pos.2 hT
        omega
      · intro h
        have := congrArg List.length h
        rw [List.length_append, List.length_cons, List.length_singleton] at this
        have := List.length_pos.2 hT
        omega
    have hp2 : filepath.Plain (filepath.child (parent ++ '/' :: T) InstancesDirName) :=
      filepath.child_plain _ _ InstancesDirName_isElem.1 InstancesDirName_isElem.2.2.1
        InstancesDirName_isElem.2.1
    rw [hc, SandboxConfig.InstancePath_eq_child ext cfg hS, hdir,
      filepath.child_of_plain _ _ hp2, filepath.child_of_plain _ _ hp]
    simp

/-- C7, the amended claim at sample command lines: with the data root `/` the instance path of the sample sandbox
`sbx-1` starts with `/tmpl-a/instances/` and the template ID read off it is `tmpl-a`; the command
line `tmpl-a/instances/sbx-1` has the shape nowhere. -/
theorem parseTemplateId_leftmost_shape_witness :
    parseTemplateIdFromOrphanProcess
      ⟨4242, .ok ({ sampleConfig "sbx-1".toList with DataRoot := "/".toList }.InstancePath
        sampleExternals ++ "/rootfs.ext4".toList)⟩ = ("tmpl-a".toList, none) ∧
    ¬ ∃ pre T, TemplateShapeAt "tmpl-a/instances/sbx-1".toList pre T :=
  ⟨(parseTemplateId_leftmost_shape 4242 _).2.2 sampleExternals
      { sampleConfig "sbx-1".toList with DataRoot := "/".toList } [] "tmpl-a".toList []
      "/rootfs.ext4".toList (by decide) (by decide) (by decide) (by decide) rfl
      (fun _ _ _ => Nat.zero_le _),
    (parseTemplateId_leftmost_shape 4242 "tmpl-a/instances/sbx-1".toList).1.1 (by decide)⟩

/-! ## The host -/

@[simp] theorem World.call_fst (w : World) (c : Call) : (w.call c).1 = w.outcome w.trace c := rfl

@[simp] theorem World.call_trace (w : World) (c : Call) :
    (w.call c).2.trace = w.trace ++ [⟨c, w.outcome w.trace c⟩] := rfl

@[simp] theorem World.call_outcome (w : World) (c : Call) : (w.call c).2.outcome = w.outcome :=
  rfl

@[simp] theorem World.sleep_trace (w : World) (ms : Nat) :
    (w.sleep ms).trace = w.trace ++ [⟨.Sleep ms, none⟩] := rfl

@[simp] theorem World.sleep_outcome (w : World) (ms : Nat) : (w.sleep ms).outcome = w.outcome :=
  rfl

@[simp] theorem World.report_trace (w : World) (r : Report) : (w.report r).trace = w.trace := rfl

@[simp] theorem World.report_outcome (w : World) (r : Report) :
    (w.report r).outcome = w.outcome := rfl

/-! ## Joined errors -/

theorem errors.Join_eq_none (a b : Option GoError) :
    errors.Join [a, b] = none ↔ a = none ∧ b = none := by
  cases a <;> cases b <;> simp [errors.Join]

theorem Reported_join_left (a b : Option GoError) (e : GoError) (h : Reported a e) :
    Reported (errors.Join [a, b]) e := by
  obtain ⟨outer, rfl, hj⟩ := h
  cases b with
  | none => exact ⟨_, rfl, GoError.Joins.member _ outer e (by simp) hj⟩
  | some x => exact ⟨_, rfl, GoError.Joins.member _ outer e (by simp) hj⟩

theorem Reported_join_right (a b : Option GoError) (e : GoError) (h : Reported b e) :
    Reported (errors.Join [a, b]) e := by
  obtain ⟨outer, rfl, hj⟩ := h
  cases a with
  | none => exact ⟨_, rfl, GoError.Joins.member _ outer e (by simp) hj⟩
  | some x => exact ⟨_, rfl, GoError.Joins.member _ outer e (by simp) hj⟩

theorem Reported_self (e : GoError) : Reported (some e) e := ⟨e, rfl, GoError.Joins.self e⟩

theorem joinOnto_joinOnto (a : Option GoError) (l1 l2 : List (Option GoError)) :
    joinOnto (joinOnto a l1) l2 = joinOnto a (l1 ++ l2) := by
  simp only [joinOnto, List.foldl_append]

theorem joinFailed_snoc (errs : List (Option GoError)) (err : Option GoError) :
    joinFailed (errs ++ [err]) =
      match err with
      | some e => errors.Join [joinFailed errs, some e]
      | none => joinFailed errs := by
  simp only [joinFailed, joinOnto, List.foldl_append, List.foldl_cons, List.foldl_nil]

theorem joinFailed_eq_none (errs : List (Option GoError)) :
    joinFailed errs = none ↔ ∀ err ∈ errs, err = none := by
  induction errs using List.reverseRecOn with
  | nil => simp [joinFailed, joinOnto]
  | append_singleton errs err ih =>
    rw [joinFailed_snoc]
    cases err with
    | none =>
      simp only [ih, List.mem_append, List.mem_singleton]
      constructor
      · intro h x hx
        rcases hx with hx | hx
        · exact h x hx
        · exact hx
      · intro h x hx
        exact h x (Or.inl hx)
    | some e =>
      simp only [errors.Join_eq_none, List.mem_append, List.mem_singleton]
      constructor
      · intro h; exact absurd h.2 (by simp)
      · intro h; exact absurd (h (some e) (Or.inr rfl)) (by simp)

theorem joinFailed_reported (errs : List (Option GoError)) (e : GoError)
    (h : some e ∈ errs) : Reported (joinFailed errs) e := by
  induction errs using List.reverseRecOn with
  | nil => simp at h
  | append_singleton errs err ih =>
    rw [joinFailed_snoc]
    rcases List.mem_append.1 h with h1 | h1
    · cases err with
      | none => exact ih h1
      | some x => exact Reported_join_left _ _ _ (ih h1)
    · rw [← List.mem_singleton.1 h1]
      exact Reported_join_right _ _ _ (Reported_self e)

/-! ## `CleanupFiles` -/

theorem SandboxConfig.CleanupFiles.collect_fst (format event : String)
    (err finalErr : Option GoError) (w : World) :
    (CleanupFiles.collect format event err finalErr w).1 =
      match wrapped format err with
      | some e => errors.Join [finalErr, some e]
      | none => finalErr := by
  cases err <;> rfl

@[simp] theorem SandboxConfig.CleanupFiles.collect_trace (format event : String)
    (err finalErr : Option GoError) (w : World) :
    (CleanupFiles.collect format event err finalErr w).2.trace = w.trace := by
  cases err <;> rfl

@[simp] theorem SandboxConfig.CleanupFiles.collect_outcome (format event : String)
    (err finalErr : Option GoError) (w : World) :
    (CleanupFiles.collect format event err finalErr w).2.outcome = w.outcome := by
  cases err <;> rfl

theorem SandboxConfig.CleanupFiles.retry_run (path : GoString) (err0 : Option GoError)
    (w : World) :
    ∃ cg, (CleanupFiles.retry path [200, 500, 1500] err0 w).2.trace = w.trace ++ cg ∧
      (CleanupFiles.retry path [200, 500, 1500] err0 w).2.outcome = w.outcome ∧
      CgroupAttempts path cg (CleanupFiles.retry path [200, 500, 1500] err0 w).1 := by
  rw [CleanupFiles.retry]
  cases h1 : (w.call (.Rmdir path)).1 with
  | none =>
    simp only [World.call_fst] at h1
    exact ⟨_, by simp [h1], rfl, Or.inl ⟨rfl, rfl⟩⟩
  | some e1 =>
    simp only [World.call_fst] at h1
    simp only
    rw [CleanupFiles.retry]
    cases h2 : (((w.call (.Rmdir path)).2.sleep 200).call (.Rmdir path)).1 with
    | none =>
      simp [h1] at h2
      exact ⟨_, by simp [h1, h2], rfl, Or.inr (Or.inl ⟨e1, rfl, rfl⟩)⟩
    | some e2 =>
      simp [h1] at h2
      simp only
      rw [CleanupFiles.retry]
      cases h3 : (((((w.call (.Rmdir path)).2.sleep 200).call (.Rmdir path)).2.sleep 500).call
          (.Rmdir path)).1 with
      | none =>
        simp [h1, h2] at h3
        exact ⟨_, by simp [h1, h2, h3], rfl, Or.inr (Or.inr (Or.inl ⟨e1, e2, rfl, rfl⟩))⟩
      | some e3 =>
        simp [h1, h2] at h3
        simp only
        rw [CleanupFiles.retry]
        exact ⟨_, by simp [h1, h2, h3], rfl,
          Or.inr (Or.inr (Or.inr ⟨e1, e2, e3, rfl, rfl⟩))⟩

theorem SandboxConfig.CleanupFiles.collect_call_run (c : Call) (format event : String)
    (finalErr : Option GoError) (w : World) :
    ∃ (R : Option GoError) (s : Option GoError × World),
      CleanupFiles.collect format event (w.call c).1 finalErr (w.call c).2 = s ∧
      (w.call c).1 = R ∧ s.2.trace = w.trace ++ [⟨c, R⟩] ∧ s.2.outcome = w.outcome ∧
      s.1 = joinOnto finalErr [wrapped format R] := by
  refine ⟨_, _, rfl, rfl, by simp, by simp, ?_⟩
  rw [CleanupFiles.collect_fst]
  cases (w.call c).1 <;> rfl

theorem SandboxConfig.CleanupFiles.retry_state (path : GoString) (err0 : Option GoError)
    (w : World) :
    ∃ (cg : List Entry) (r : Option GoError × World),
      CleanupFiles.retry path [200, 500, 1500] err0 w = r ∧
      r.2.trace = w.trace ++ cg ∧ r.2.outcome = w.outcome ∧ CgroupAttempts path cg r.1 := by
  obtain ⟨cg, h1, h2, h3⟩ := CleanupFiles.retry_run path err0 w
  exact ⟨cg, _, rfl, h1, h2, h3⟩

theorem SandboxConfig.CleanupFiles_run (ext : Externals) (cfg : SandboxConfig)
    (keepInstanceDir : Bool) (w : World) :
    ∃ tr, (cfg.CleanupFiles ext keepInstanceDir w).2.trace = w.trace ++ tr ∧
      (cfg.CleanupFiles ext keepInstanceDir w).2.outcome = w.outcome ∧
      CleanupRun ext cfg keepInstanceDir tr (cfg.CleanupFiles ext keepInstanceDir w).1 := by
  -- the state after the instance-tree step
  have h1 : ∃ (instR : Option GoError) (s1 : Option GoError × World),
      (if (!keepInstanceDir) = true then
        CleanupFiles.collect "error deleting env instance files: %w"
          "removed all env instance files" (w.call (.RemoveAll (cfg.InstancePath ext))).1 none
          (w.call (.RemoveAll (cfg.InstancePath ext))).2
       else (none, w)) = s1 ∧
      s1.2.trace = w.trace ++
        (if keepInstanceDir then [] else [⟨.RemoveAll (cfg.InstancePath ext), instR⟩]) ∧
      s1.2.outcome = w.outcome ∧ (keepInstanceDir = true → instR = none) ∧
      s1.1 = joinOnto none [wrapped "error deleting env instance files: %w" instR] := by
    cases keepInstanceDir with
    | true => exact ⟨none, _, rfl, by simp, rfl, fun _ => rfl, rfl⟩
    | false =>
      obtain ⟨R, s, hs, _, ht, ho, hf⟩ := CleanupFiles.collect_call_run
        (.RemoveAll (cfg.InstancePath ext)) "error deleting env instance files: %w"
        "removed all env instance files" none w
      exact ⟨R, s, by simpa using hs, by simpa using ht, ho, by simp, hf⟩
  obtain ⟨instR, s1, hs1, ht1, ho1, hk1, hf1⟩ := h1
  obtain ⟨sockR, s2, hs2, _, ht2, ho2, hf2⟩ := CleanupFiles.collect_call_run
    (.Remove cfg.SocketPath) "error deleting socket: %w" "removed socket" s1.1 s1.2
  obtain ⟨promR, s3, hs3, hp3, ht3, ho3, hf3⟩ := CleanupFiles.collect_call_run
    (.Remove (cfg.PrometheusTargetPath ext)) "error prometheus target path: %w"
    "removed prometheus target path" s2.1 s2.2
  obtain ⟨cg, r4, hr4, ht4, ho4, hcg⟩ := CleanupFiles.retry_state (cfg.CgroupPath ext) promR s3.2
  have hrun : cfg.CleanupFiles ext keepInstanceDir w =
      CleanupFiles.collect "error remove cgroup path: %w" "removed cgroup path" r4.1 s3.1
        r4.2 := by
    simp only [CleanupFiles]
    rw [hs1, hs2, hs3, hp3, hr4]
  refine ⟨(if keepInstanceDir then [] else [⟨.RemoveAll (cfg.InstancePath ext), instR⟩]) ++
      [⟨.Remove cfg.SocketPath, sockR⟩, ⟨.Remove (cfg.PrometheusTargetPath ext), promR⟩] ++ cg,
    ?_, ?_, instR, sockR, promR, r4.1, cg, rfl, hk1, hcg, ?_⟩
  · rw [hrun, CleanupFiles.collect_trace, ht4, ht3, ht2, ht1]
    simp
  · rw [hrun, CleanupFiles.collect_outcome, ho4, ho3, ho2, ho1]
  · have h4 : (CleanupFiles.collect "error remove cgroup path: %w" "removed cgroup path" r4.1
        s3.1 r4.2).1 = joinOnto s3.1 [wrapped "error remove cgroup path: %w" r4.1] := by
      rw [CleanupFiles.collect_fst]
      cases r4.1 <;> rfl
    rw [hrun, h4, hf3, hf2, hf1, joinOnto_joinOnto, joinOnto_joinOnto, joinOnto_joinOnto]
    rfl

/-! ## `purgeOne` -/

theorem purgeOne.kill_run (pid : Int) (w : World) :
    ∃ (tr : List Entry) (r : Option GoError × World),
      purgeOne.kill pid w = r ∧ r.2.trace = w.trace ++ tr ∧ r.2.outcome = w.outcome ∧
      KillRun pid tr r.1 := by
  unfold purgeOne.kill
  cases h : (w.call (.FindProcess pid)).1 with
  | some e =>
    simp only [World.call_fst] at h
    exact ⟨[⟨.FindProcess pid, some e⟩], _, rfl, by simp [h], rfl, Or.inl ⟨e, rfl, rfl⟩⟩
  | none =>
    simp only [World.call_fst] at h
    exact ⟨[⟨.FindProcess pid, none⟩, ⟨.Kill pid, _⟩], _, rfl, by simp [h], rfl,
      Or.inr ⟨_, rfl, rfl⟩⟩

theorem purgeOne.note_call_run (c : Call) (finalErr : Option GoError) (w : World) :
    ∃ (R : Option GoError) (s : Option GoError × World),
      purgeOne.note (w.call c).1 finalErr (w.call c).2 = s ∧
      s.2.trace = w.trace ++ [⟨c, R⟩] ∧ s.2.outcome = w.outcome ∧
      s.1 = joinOnto finalErr [R] := by
  cases h : (w.call c).1 with
  | some e =>
    simp only [World.call_fst] at h
    exact ⟨some e, _, rfl, by simp [purgeOne.note, h], rfl, rfl⟩
  | none =>
    simp only [World.call_fst] at h
    exact ⟨none, _, rfl, by simp [purgeOne.note, h], rfl, rfl⟩

theorem purgeOne.network_run (sandboxID : GoString) (w : World) :
    ∃ (r1 r2 r3 r4 r5 : Option GoError) (r : Option GoError × World),
      purgeOne.network sandboxID w = r ∧
      r.2.trace = w.trace ++ [⟨.DeleteNetns sandboxID, r1⟩, ⟨.DeleteHostVethDev sandboxID, r2⟩,
        ⟨.DeleteHostIptables sandboxID, r3⟩, ⟨.DeleteHostRoute sandboxID, r4⟩,
        ⟨.DeleteDNSEntry sandboxID, r5⟩] ∧
      r.2.outcome = w.outcome ∧ r.1 = joinFailed [r1, r2, r3, r4, r5] := by
  obtain ⟨r1, s1, hs1, ht1, ho1, hf1⟩ := purgeOne.note_call_run (.DeleteNetns sandboxID) none w
  obtain ⟨r2, s2, hs2, ht2, ho2, hf2⟩ :=
    purgeOne.note_call_run (.DeleteHostVethDev sandboxID) s1.1 s1.2
  obtain ⟨r3, s3, hs3, ht3, ho3, hf3⟩ :=
    purgeOne.note_call_run (.DeleteHostIptables sandboxID) s2.1 s2.2
  obtain ⟨r4, s4, hs4, ht4, ho4, hf4⟩ :=
    purgeOne.note_call_run (.DeleteHostRoute sandboxID) s3.1 s3.2
  obtain ⟨r5, s5, hs5, ht5, ho5, hf5⟩ :=
    purgeOne.note_call_run (.DeleteDNSEntry sandboxID) s4.1 s4.2
  have hrun : purgeOne.network sandboxID w = s5 := by
    simp only [purgeOne.network]
    rw [hs1, hs2, hs3, hs4, hs5]
  refine ⟨r1, r2, r3, r4, r5, s5, hrun, ?_, ?_, ?_⟩
  · rw [ht5, ht4, ht3, ht2, ht1]
    simp
  · rw [ho5, ho4, ho3, ho2, ho1]
  · rw [hf5, hf4, hf3, hf2, hf1, joinOnto_joinOnto, joinOnto_joinOnto, joinOnto_joinOnto,
      joinOnto_joinOnto]
    rfl

theorem purgeOne.cleanupEnv_run (ext : Externals)
    (newConfig : GoString → GoString → SandboxConfig) (sandboxID templateID : GoString)
    (w : World) :
    ∃ (tr : List Entry) (r : Option GoError × World),
      purgeOne.cleanupEnv ext newConfig sandboxID templateID w = r ∧
      r.2.trace = w.trace ++ tr ∧ r.2.outcome = w.outcome ∧
      CleanupEnvRun ext newConfig sandboxID templateID tr r.1 := by
  unfold purgeOne.cleanupEnv
  cases h : (w.call (.NewSandboxConfig sandboxID templateID)).1 with
  | some e =>
    simp only [World.call_fst] at h
    exact ⟨[⟨.NewSandboxConfig sandboxID templateID, some e⟩], _, rfl, by simp [h], rfl,
      Or.inl ⟨e, rfl, rfl⟩⟩
  | none =>
    simp only [World.call_fst] at h
    obtain ⟨files, ht, ho, hrun⟩ := SandboxConfig.CleanupFiles_run ext
      (newConfig sandboxID templateID) false
      (w.call (.NewSandboxConfig sandboxID templateID)).2
    refine ⟨⟨.NewSandboxConfig sandboxID templateID, none⟩ :: files, _, rfl, ?_, ?_,
      Or.inr ⟨files, rfl, hrun⟩⟩
    · simp only
      rw [ht]
      simp [h]
    · simp only
      rw [ho]
      rfl

@[simp] theorem purgeOne.record_fst (event : String) (sandboxID : GoString)
    (eventAttrs : List (String × GoString)) (err finalErr : Option GoError) (w : World) :
    (purgeOne.record event sandboxID eventAttrs err finalErr w).1 = errors.Join [finalErr, err] :=
  rfl

@[simp] theorem purgeOne.record_trace (event : String) (sandboxID : GoString)
    (eventAttrs : List (String × GoString)) (err finalErr : Option GoError) (w : World) :
    (purgeOne.record event sandboxID eventAttrs err finalErr w).2.trace = w.trace := by
  cases err <;> rfl

@[simp] theorem purgeOne.record_outcome (event : String) (sandboxID : GoString)
    (eventAttrs : List (String × GoString)) (err finalErr : Option GoError) (w : World) :
    (purgeOne.record event sandboxID eventAttrs err finalErr w).2.outcome = w.outcome := by
  cases err <;> rfl

theorem purgeOne_run {NetworkEnv : Type} (ext : Externals)
    (newConfig : GoString → GoString → SandboxConfig) (info : SandboxInfo NetworkEnv)
    (w : World) :
    ∃ (t1 t3 : List Entry) (e1 e3 r1 r2 r3 r4 r5 : Option GoError),
      (purgeOne ext newConfig info w).2.trace = w.trace ++ t1 ++
        [⟨.DeleteNetns info.SandboxID, r1⟩, ⟨.DeleteHostVethDev info.SandboxID, r2⟩,
          ⟨.DeleteHostIptables info.SandboxID, r3⟩, ⟨.DeleteHostRoute info.SandboxID, r4⟩,
          ⟨.DeleteDNSEntry info.SandboxID, r5⟩] ++ t3 ∧
      KillRun info.Pid t1 e1 ∧
      CleanupEnvRun ext newConfig info.SandboxID info.TemplateID t3 e3 ∧
      (purgeOne ext newConfig info w).1 =
        errors.Join [errors.Join [errors.Join [none, e1], joinFailed [r1, r2, r3, r4, r5]],
          e3] := by
  obtain ⟨t1, k, hk, htk, hok, hkr⟩ := purgeOne.kill_run info.Pid w
  obtain ⟨r1, r2, r3, r4, r5, n, hn, htn, hon, hnr⟩ := purgeOne.network_run info.SandboxID
    (purgeOne.record "killed orphan sandbox process" info.SandboxID
      [("sandbox-id", info.SandboxID)] k.1 none k.2).2
  obtain ⟨t3, c, hc, htc, hoc, hcr⟩ := purgeOne.cleanupEnv_run ext newConfig info.SandboxID
    info.TemplateID
    (purgeOne.record "cleanup network of orphan process" info.SandboxID
      [("sandbox-id", info.SandboxID)] n.1
      (purgeOne.record "killed orphan sandbox process" info.SandboxID
        [("sandbox-id", info.SandboxID)] k.1 none k.2).1 n.2).2
  have hrun : purgeOne ext newConfig info w =
      purgeOne.record "cleanup files of orphan process" info.SandboxID [] c.1
        (purgeOne.record "cleanup network of orphan process" info.SandboxID
          [("sandbox-id", info.SandboxID)] n.1
          (purgeOne.record "killed orphan sandbox process" info.SandboxID
            [("sandbox-id", info.SandboxID)] k.1 none k.2).1 n.2).1 c.2 := by
    simp only [purgeOne]
    rw [hk, hn, hc]
  refine ⟨t1, t3, k.1, c.1, r1, r2, r3, r4, r5, ?_, hkr, hcr, ?_⟩
  · rw [hrun, purgeOne.record_trace, htc, purgeOne.record_trace, htn, purgeOne.record_trace,
      htk]
  · rw [hrun, purgeOne.record_fst, purgeOne.record_fst, purgeOne.record_fst, hnr]

/-! ## The cleanup properties -/

theorem CgroupAttempts.head {path : GoString} {cg : List Entry} {err : Option GoError}
    (h : CgroupAttempts path cg err) : ∃ r rest, cg = ⟨.Rmdir path, r⟩ :: rest := by
  rcases h with ⟨h, _⟩ | ⟨e1, h, _⟩ | ⟨e1, e2, h, _⟩ | ⟨e1, e2, e3, h, _⟩ <;>
    exact ⟨_, _, h⟩

theorem CgroupAttempts.calls {path : GoString} {cg : List Entry} {err : Option GoError}
    (h : CgroupAttempts path cg err) :
    ∀ en ∈ cg, en.call = .Rmdir path ∨ ∃ ms, en.call = .Sleep ms := by
  rcases h with ⟨h, _⟩ | ⟨e1, h, _⟩ | ⟨e1, e2, h, _⟩ | ⟨e1, e2, e3, h, _⟩ <;>
    · subst h
      intro en hen
      simp only [List.mem_cons, List.mem_singleton, List.not_mem_nil, or_false] at hen
      rcases hen with rfl | rfl | rfl | rfl | rfl | rfl <;> simp

theorem CgroupAttempts.succeeded_iff {path : GoString} {cg : List Entry} {err : Option GoError}
    (h : CgroupAttempts path cg err) :
    err = none ↔ ∃ en ∈ cg, en.call = .Rmdir path ∧ en.result = none := by
  rcases h with ⟨h, he⟩ | ⟨e1, h, he⟩ | ⟨e1, e2, h, he⟩ | ⟨e1, e2, e3, h, he⟩ <;>
    · subst h he
      simp

/-- C3. Whatever the removals return, `CleanupFiles` calls, in this order, the removal of the
instance tree (exactly when `keepInstanceDir` is false), the removal of the socket, the removal
of the metrics-target file and the removal of the cgroup directory (once or, when it fails,
again); the returned error is `nil` exactly when every attempted step succeeded, and it joins
the wrapped error of each failed step. -/
theorem CleanupFiles_attempts_every_removal (ext : Externals) (cfg : SandboxConfig)
    (keepInstanceDir : Bool) (w : World) :
    ∃ (instR sockR promR cgR : Option GoError) (cg : List Entry),
      (cfg.CleanupFiles ext keepInstanceDir w).2.trace = w.trace ++
        (if keepInstanceDir then [] else [⟨.RemoveAll (cfg.InstancePath ext), instR⟩]) ++
        [⟨.Remove cfg.SocketPath, sockR⟩, ⟨.Remove (cfg.PrometheusTargetPath ext), promR⟩] ++
        cg ∧
      (keepInstanceDir = true → instR = none) ∧
      (∃ r rest, cg = ⟨.Rmdir (cfg.CgroupPath ext), r⟩ :: rest) ∧
      (∀ en ∈ cg, en.call = .Rmdir (cfg.CgroupPath ext) ∨ ∃ ms, en.call = .Sleep ms) ∧
      (cgR = none ↔ ∃ en ∈ cg, en.call = .Rmdir (cfg.CgroupPath ext) ∧ en.result = none) ∧
      ((cfg.CleanupFiles ext keepInstanceDir w).1 = none ↔
        instR = none ∧ sockR = none ∧ promR = none ∧ cgR = none) ∧
      (cfg.CleanupFiles ext keepInstanceDir w).1 =
        joinFailed [wrapped "error deleting env instance files: %w" instR,
          wrapped "error deleting socket: %w" sockR,
          wrapped "error prometheus target path: %w" promR,
          wrapped "error remove cgroup path: %w" cgR] ∧
      (∀ e, instR = some e → Reported (cfg.CleanupFiles ext keepInstanceDir w).1
        (.wrapf "error deleting env instance files: %w" [] e)) ∧
      (∀ e, sockR = some e → Reported (cfg.CleanupFiles ext keepInstanceDir w).1
        (.wrapf "error deleting socket: %w" [] e)) ∧
      (∀ e, promR = some e → Reported (cfg.CleanupFiles ext keepInstanceDir w).1
        (.wrapf "error prometheus target path: %w" [] e)) ∧
      (∀ e, cgR = some e → Reported (cfg.CleanupFiles ext keepInstanceDir w).1
        (.wrapf "error remove cgroup path: %w" [] e)) := by
  obtain ⟨tr, ht, _, instR, sockR, promR, cgR, cg, htr, hk, hcg, herr⟩ :=
    SandboxConfig.CleanupFiles_run ext cfg keepInstanceDir w
  refine ⟨instR, sockR, promR, cgR, cg, ?_, hk, hcg.head, hcg.calls, hcg.succeeded_iff, ?_, herr,
    ?_, ?_, ?_, ?_⟩
  · rw [ht, htr]
    simp
  · rw [herr, joinFailed_eq_none]
    cases instR <;> cases sockR <;> cases promR <;> cases cgR <;> simp [wrapped]
  all_goals
    intro e he
    rw [herr]
    apply joinFailed_reported
    simp [wrapped, he]

/-- C3 on a sample host where the socket removal and every cgroup removal fail: the instance
tree, the socket, the metrics-target file and the cgroup directory are all attempted. -/
theorem CleanupFiles_attempts_every_removal_witness :
    (((sampleConfig "sbx-1".toList).CleanupFiles sampleExternals false
        (sampleWorld socketAndCgroupFail)).2.trace.map Entry.call =
      [.RemoveAll "/data/tmpl-a/instances/sbx-1".toList,
        .Remove "/tmp/fc.sock".toList,
        .Remove "/data/prometheus-targets/tmpl-a/sbx-1.json".toList,
        .Rmdir "/sys/fs/cgroup/code-interpreter/sbx-1".toList, .Sleep 200,
        .Rmdir "/sys/fs/cgroup/code-interpreter/sbx-1".toList, .Sleep 500,
        .Rmdir "/sys/fs/cgroup/code-interpreter/sbx-1".toList, .Sleep 1500]) ∧
    ∃ (instR sockR promR cgR : Option GoError),
      (((sampleConfig "sbx-1".toList).CleanupFiles sampleExternals false
        (sampleWorld socketAndCgroupFail)).1 = none ↔
        instR = none ∧ sockR = none ∧ promR = none ∧ cgR = none) := by
  refine ⟨by decide, ?_⟩
  obtain ⟨instR, sockR, promR, cgR, _, _, _, _, _, _, h, _⟩ :=
    CleanupFiles_attempts_every_removal sampleExternals (sampleConfig "sbx-1".toList) false
      (sampleWorld socketAndCgroupFail)
  exact ⟨instR, sockR, promR, cgR, h⟩

/-- C10. In `CleanupFiles` the removal of the cgroup directory comes after the other removals;
it is tried once, twice or three times, never again after a success, with a sleep of 200ms,
500ms and 1500ms after the first, second and third failed attempt.  When an attempt succeeds
the returned error is exactly the error of the earlier steps (whatever they returned, no
cgroup-removal error is added); when all three fail it is that error joined with the wrapped
error of the third attempt. -/
theorem CleanupFiles_cgroup_retry (ext : Externals) (cfg : SandboxConfig)
    (keepInstanceDir : Bool) (w : World) :
    ∃ (earlier cg : List Entry) (instR sockR promR cgR : Option GoError),
      (cfg.CleanupFiles ext keepInstanceDir w).2.trace = w.trace ++ earlier ++ cg ∧
      earlier = (if keepInstanceDir then [] else [⟨.RemoveAll (cfg.InstancePath ext), instR⟩]) ++
        [⟨.Remove cfg.SocketPath, sockR⟩, ⟨.Remove (cfg.PrometheusTargetPath ext), promR⟩] ∧
      CgroupAttempts (cfg.CgroupPath ext) cg cgR ∧
      1 ≤ (cg.filter fun en => decide (en.call = .Rmdir (cfg.CgroupPath ext))).length ∧
      (cg.filter fun en => decide (en.call = .Rmdir (cfg.CgroupPath ext))).length ≤ 3 ∧
      (cgR = none →
        (cfg.CleanupFiles ext keepInstanceDir w).1 =
          joinFailed [wrapped "error deleting env instance files: %w" instR,
            wrapped "error deleting socket: %w" sockR,
            wrapped "error prometheus target path: %w" promR]) ∧
      (∀ e3, cgR = some e3 →
        (cfg.CleanupFiles ext keepInstanceDir w).1 =
          errors.Join [joinFailed [wrapped "error deleting env instance files: %w" instR,
            wrapped "error deleting socket: %w" sockR,
            wrapped "error prometheus target path: %w" promR],
            some (.wrapf "error remove cgroup path: %w" [] e3)]) := by
  obtain ⟨tr, ht, _, instR, sockR, promR, cgR, cg, htr, hk, hcg, herr⟩ :=
    SandboxConfig.CleanupFiles_run ext cfg keepInstanceDir w
  refine ⟨_, cg, instR, sockR, promR, cgR, ?_, rfl, hcg, ?_, ?_, ?_, ?_⟩
  · rw [ht, htr]
    simp
  · rcases hcg with ⟨h, _⟩ | ⟨e1, h, _⟩ | ⟨e1, e2, h, _⟩ | ⟨e1, e2, e3, h, _⟩ <;>
      · subst h
        simp [List.filter_cons]
  · rcases hcg with ⟨h, _⟩ | ⟨e1, h, _⟩ | ⟨e1, e2, h, _⟩ | ⟨e1, e2, e3, h, _⟩ <;>
      · subst h
        simp [List.filter_cons]
  · intro h
    rw [herr, h]
    rfl
  · intro e3 h
    rw [herr, h]
    rfl

/-- C10 on sample hosts: when every removal of the cgroup directory fails, it is tried three
times with the sleeps 200ms, 500ms, 1500ms and its error is returned; when only the file
removals fail, it is tried once and the returned error holds no cgroup-removal error. -/
theorem CleanupFiles_cgroup_retry_witness :
    (((sampleConfig "sbx-1".toList).CleanupFiles sampleExternals true
        (sampleWorld socketAndCgroupFail)).2.trace.map Entry.call =
      [.Remove "/tmp/fc.sock".toList,
        .Remove "/data/prometheus-targets/tmpl-a/sbx-1.json".toList,
        .Rmdir "/sys/fs/cgroup/code-interpreter/sbx-1".toList, .Sleep 200,
        .Rmdir "/sys/fs/cgroup/code-interpreter/sbx-1".toList, .Sleep 500,
        .Rmdir "/sys/fs/cgroup/code-interpreter/sbx-1".toList, .Sleep 1500]) ∧
    ((sampleConfig "sbx-1".toList).CleanupFiles sampleExternals true
        (sampleWorld removeFails)).2.trace.map Entry.call =
      [.Remove "/tmp/fc.sock".toList,
        .Remove "/data/prometheus-targets/tmpl-a/sbx-1.json".toList,
        .Rmdir "/sys/fs/cgroup/code-interpreter/sbx-1".toList] ∧
    ((sampleConfig "sbx-1".toList).CleanupFiles sampleExternals true
        (sampleWorld removeFails)).1 =
      some (.join [.join [.wrapf "error deleting socket: %w" [] (.foreign 1)],
        .wrapf "error prometheus target path: %w" [] (.foreign 1)]) ∧
    ∃ cg cgR, CgroupAttempts ((sampleConfig "sbx-1".toList).CgroupPath sampleExternals) cg cgR := by
  refine ⟨by decide, by decide, rfl, ?_⟩
  obtain ⟨_, cg, _, _, _, cgR, _, _, h, _⟩ :=
    CleanupFiles_cgroup_retry sampleExternals (sampleConfig "sbx-1".toList) true
      (sampleWorld removeFails)
  exact ⟨cg, cgR, h⟩

/-- C4. Whatever its steps return, `purgeOne` runs, in this order, step 1 (the process is looked
up by pid and, when found, killed), the five network teardown calls (namespace, host veth
device, host iptables rules, host route, DNS entry), and step 3 (the sandbox configuration is
built and, when that succeeds, `CleanupFiles` runs without keeping the instance directory); no
step and no network sub-step is left out because an earlier one failed.  The returned error is
`nil` exactly when step 1, each of the five network calls and step 3 succeeded, and otherwise
it joins the error of every failed one. -/
theorem purgeOne_attempts_every_step {NetworkEnv : Type} (ext : Externals)
    (newConfig : GoString → GoString → SandboxConfig) (info : SandboxInfo NetworkEnv)
    (w : World) :
    ∃ (t1 t3 : List Entry) (e1 e3 r1 r2 r3 r4 r5 : Option GoError),
      (purgeOne ext newConfig info w).2.trace = w.trace ++ t1 ++
        [⟨.DeleteNetns info.SandboxID, r1⟩, ⟨.DeleteHostVethDev info.SandboxID, r2⟩,
          ⟨.DeleteHostIptables info.SandboxID, r3⟩, ⟨.DeleteHostRoute info.SandboxID, r4⟩,
          ⟨.DeleteDNSEntry info.SandboxID, r5⟩] ++ t3 ∧
      KillRun info.Pid t1 e1 ∧
      CleanupEnvRun ext newConfig info.SandboxID info.TemplateID t3 e3 ∧
      ((purgeOne ext newConfig info w).1 = none ↔
        e1 = none ∧ r1 = none ∧ r2 = none ∧ r3 = none ∧ r4 = none ∧ r5 = none ∧ e3 = none) ∧
      (∀ e, e1 = some e ∨ r1 = some e ∨ r2 = some e ∨ r3 = some e ∨ r4 = some e ∨
          r5 = some e ∨ e3 = some e →
        Reported (purgeOne ext newConfig info w).1 e) := by
  obtain ⟨t1, t3, e1, e3, r1, r2, r3, r4, r5, ht, hk, hc, herr⟩ :=
    purgeOne_run ext newConfig info w
  refine ⟨t1, t3, e1, e3, r1, r2, r3, r4, r5, ht, hk, hc, ?_, ?_⟩
  · rw [herr, errors.Join_eq_none, errors.Join_eq_none, errors.Join_eq_none,
      joinFailed_eq_none]
    simp [and_assoc]
  · intro e he
    rw [herr]
    rcases he with he | he | he | he | he | he | he
    · exact Reported_join_left _ _ _ (Reported_join_left _ _ _
        (Reported_join_right _ _ _ (he ▸ Reported_self e)))
    all_goals first
      | exact Reported_join_right _ _ _ (he ▸ Reported_self e)
      | exact Reported_join_left _ _ _ (Reported_join_right _ _ _
          (joinFailed_reported _ e (by simp [he])))

/-- C4 on a sample host where the process lookup and the namespace deletion fail: the remaining
network calls and the whole file cleanup are still made, in order. -/
theorem purgeOne_attempts_every_step_witness :
    ((purgeOne sampleExternals (fun sandboxID _ => sampleConfig sandboxID) sampleInfo
        (sampleWorld findAndNetnsFail)).2.trace.map Entry.call =
      [.FindProcess 4242,
        .DeleteNetns "sbx-1".toList, .DeleteHostVethDev "sbx-1".toList,
        .DeleteHostIptables "sbx-1".toList, .DeleteHostRoute "sbx-1".toList,
        .DeleteDNSEntry "sbx-1".toList,
        .NewSandboxConfig "sbx-1".toList "tmpl-a".toList,
        .RemoveAll "/data/tmpl-a/instances/sbx-1".toList,
        .Remove "/tmp/fc.sock".toList,
        .Remove "/data/prometheus-targets/tmpl-a/sbx-1.json".toList,
        .Rmdir "/sys/fs/cgroup/code-interpreter/sbx-1".toList]) ∧
    ∃ (t1 : List Entry) (e1 : Option GoError), KillRun sampleInfo.Pid t1 e1 := by
  refine ⟨by decide, ?_⟩
  obtain ⟨t1, _, e1, _, _, _, _, _, _, _, h, _⟩ :=
    purgeOne_attempts_every_step sampleExternals (fun sandboxID _ => sampleConfig sandboxID)
      sampleInfo (sampleWorld findAndNetnsFail)
  exact ⟨t1, e1, h⟩

/-! ## Sample runs of the registry and of orphan discovery -/

/-- C1 on the empty table: inserting `sbx-1` reports a fresh ID, inserting it again reports a
known one. -/
theorem InsertSandbox_spec_witness :
    (InsertSandbox Prod.fst (⟨∅⟩ : server (GoString × Nat)) ("sbx-1".toList, 1)).1 = false ∧
    (InsertSandbox Prod.fst
      (InsertSandbox Prod.fst (⟨∅⟩ : server (GoString × Nat)) ("sbx-1".toList, 1)).2
      ("sbx-1".toList, 2)).1 = true :=
  ⟨(InsertSandbox_spec Prod.fst (⟨∅⟩ : server (GoString × Nat)) ("sbx-1".toList, 1)).1.2
      (by decide),
    ((InsertSandbox_spec Prod.fst (⟨∅⟩ : server (GoString × Nat)) ("sbx-1".toList, 1)).2.2.2.2.1
      ("sbx-1".toList, 2) rfl).1⟩

/-- C8 on the empty table: removing the unknown ID `sbx-1` returns false and leaves the table
as it is. -/
theorem DelSandbox_spec_witness :
    DelSandbox (⟨∅⟩ : server (GoString × Nat)) "sbx-1".toList = (false, ⟨∅⟩) :=
  (DelSandbox_spec (⟨∅⟩ : server (GoString × Nat)) "sbx-1".toList).2.2.1 (by decide)

/-- C2 on the sample processes: `sbx-1` has one launcher process, which is returned; `sbx-9` has
none; `sbx-` is contained in two command lines, and no process is returned. -/
theorem getOrphanProcess_exactly_one_witness :
    getOrphanProcess "firecracker".toList "cloud-hypervisor".toList (.ok sampleProcesses)
      "sbx-1".toList =
      (some ⟨100, .ok "unshare -m -- ip netns exec sbx-1 firecracker --id sbx-1".toList⟩,
        none) ∧
    getOrphanProcess "firecracker".toList "cloud-hypervisor".toList (.ok sampleProcesses)
      "sbx-9".toList =
      (none, some (.errorf "cannot find orphan process with sandbox id %s"
        [.str "sbx-9".toList])) ∧
    getOrphanProcess "firecracker".toList "cloud-hypervisor".toList (.ok sampleProcesses)
      "sbx-".toList =
      (none, some (.errorf "find more than one process match sandbox id %s"
        [.str "sbx-".toList])) :=
  ⟨(getOrphanProcess_exactly_one "firecracker".toList "cloud-hypervisor".toList "sbx-1".toList
      sampleProcesses).2.2.1 _ rfl,
    (getOrphanProcess_exactly_one "firecracker".toList "cloud-hypervisor".toList "sbx-9".toList
      sampleProcesses).2.2.2.1 rfl,
    (getOrphanProcess_exactly_one "firecracker".toList "cloud-hypervisor".toList "sbx-".toList
      sampleProcesses).2.2.2.2 (by decide)⟩

end TrEnv
